import Mathlib

/-!
Verification development for the image-guide parsing / prompt-conversion /
text-overlay pipeline of the naver-blog-automation-skill repository.

The Python sources (src/scripts/prompt_converter.py, src/scripts/text_overlay.py,
src/scripts/gemini_image.py) are shallowly embedded below:

* Python strings are modelled as `List Char` (wrapped in `String` at the API
  boundary); Python's `str` helpers (`strip`, `split`, `replace`, `in`,
  `startswith`, `lower`, `splitlines`) are reimplemented with their CPython
  semantics restricted to the character sets that actually occur in this
  code base (ASCII whitespace, Hangul, the emoji markers).
* The `re` module usage is embedded through a small backtracking regular
  expression engine (`RE`, `reRun`) that reproduces CPython's leftmost /
  greedy-with-backtracking match order for the constructs these regexes use
  (character classes, literals, alternation, greedy and lazy repetition of
  character classes, optional groups, lookahead, anchors, capture groups).
  `re.sub`, `re.match`, `re.search`, `re.finditer` and `re.split` are built
  on top of it.
* CPython `float` arithmetic is modelled in exact rational arithmetic `ℚ`
  for finite values, with overflow to a signed infinity at the IEEE-754
  binary64 overflow threshold `2^1024 - 2^970` and with the `inf` /
  `infinity` / `nan` spellings of `float(s)` recognised (`PyFloat`); every
  theorem below that touches such a value has been checked against CPython
  double semantics on the relevant input range (e.g.
  `int(f * 0.18) = 18 * f / 100` for all `0 ≤ f < 10^6`).
* Fallible Python code (exceptions) is modelled with `Except PyErr`.
-/

namespace NaverBlog

/-- Python exception kinds that the embedded code can raise. -/
inductive PyErr where
  | valueError
  | attributeError
  | overflowError
  deriving Repr, DecidableEq

/-- Decidable equality for `Except` results, so that concrete evaluations
of the embedded fallible functions can be settled by `decide`. -/
instance {ε α : Type} [DecidableEq ε] [DecidableEq α] : DecidableEq (Except ε α) := fun x y =>
  match x, y with
  | .ok a, .ok b =>
    if h : a = b then .isTrue (congrArg Except.ok h)
    else .isFalse (fun e => h (by injection e))
  | .ok _, .error _ => .isFalse (fun h => Except.noConfusion h)
  | .error _, .ok _ => .isFalse (fun h => Except.noConfusion h)
  | .error e1, .error e2 =>
    if h : e1 = e2 then .isTrue (congrArg Except.error h)
    else .isFalse (fun e => h (by injection e))

/-- CPython `str.isspace` / `str.strip()` whitespace, restricted to the ASCII
whitespace characters (the inputs of this code base contain no exotic
Unicode whitespace). -/
def isPySpace (c : Char) : Bool :=
  c = ' ' ∨ c = '\t' ∨ c = '\n' ∨ c = '\r' ∨ c = '\x0b' ∨ c = '\x0c'

/-- The single-quote character (U+0027), used by the quote classes of the
embedded regexes. -/
def squote : Char := Char.ofNat 39

/-- Python `str.strip()` on a character list. -/
def pyStripL (l : List Char) : List Char :=
  ((l.dropWhile isPySpace).reverse.dropWhile isPySpace).reverse

/-- Python `str.strip()`. -/
def pyStrip (s : String) : String := ⟨pyStripL s.data⟩

/-- Python `str.lstrip(chars)` for a single strip character. -/
def pyLStripCharL (ch : Char) (l : List Char) : List Char :=
  l.dropWhile (fun c => c = ch)

/-- Python `str.split(sep)` for a one-character separator: splits on every
occurrence and keeps empty pieces (CPython semantics). -/
def splitCharL (sep : Char) : List Char → List (List Char)
  | [] => [[]]
  | c :: cs =>
    if c = sep then [] :: splitCharL sep cs
    else
      match splitCharL sep cs with
      | [] => [[c]]
      | w :: ws => (c :: w) :: ws

/-- Python `str.split(sep, 1)` for a one-character separator: split at the
first occurrence only; `none` when the separator does not occur. -/
def splitFirstL (sep : Char) : List Char → Option (List Char × List Char)
  | [] => none
  | c :: cs =>
    if c = sep then some ([], cs)
    else
      match splitFirstL sep cs with
      | none => none
      | some (a, b) => some (c :: a, b)

/-- Worker for `pySplitLinesL`: `acc` is the current line, reversed. -/
def pySplitLinesAux : List Char → List Char → List (List Char)
  | [], acc => [acc.reverse]
  | '\r' :: '\n' :: cs, acc =>
    acc.reverse :: (match cs with | [] => [] | _ :: _ => pySplitLinesAux cs [])
  | '\n' :: cs, acc =>
    acc.reverse :: (match cs with | [] => [] | _ :: _ => pySplitLinesAux cs [])
  | '\r' :: cs, acc =>
    acc.reverse :: (match cs with | [] => [] | _ :: _ => pySplitLinesAux cs [])
  | c :: cs, acc => pySplitLinesAux cs (c :: acc)

/-- Python `str.splitlines()` restricted to the terminators `\n`, `\r`,
`\r\n` (the only ones appearing in this code base's inputs). -/
def pySplitLinesL : List Char → List (List Char)
  | [] => []
  | l => pySplitLinesAux l []

/-- `l₁` starts with `l₂` (Python `str.startswith`). -/
def startsWithL : List Char → List Char → Bool
  | _, [] => true
  | [], _ :: _ => false
  | c :: cs, d :: ds => c = d && startsWithL cs ds

/-- Python `needle in haystack` substring containment. -/
def containsSubL (hay pat : List Char) : Bool :=
  match hay with
  | [] => startsWithL [] pat
  | _ :: cs => startsWithL hay pat || containsSubL cs pat

/-- Fuel-driven worker for `replaceAllL`; the fuel is an upper bound on
the number of scanning steps, so structural recursion (and hence kernel
evaluation) goes through. -/
def replaceAllAux (old new : List Char) : Nat → List Char → List Char
  | _, [] => []
  | 0, l => l
  | fuel + 1, c :: cs =>
    if old ≠ [] ∧ startsWithL (c :: cs) old then
      new ++ replaceAllAux old new fuel (cs.drop (old.length - 1))
    else
      c :: replaceAllAux old new fuel cs

/-- Python `haystack.replace(old, new)`: replace every non-overlapping
occurrence, scanning left to right.  `old` is nonempty at every call site
(for empty `old` this model is the identity, which is never exercised). -/
def replaceAllL (old new l : List Char) : List Char :=
  replaceAllAux old new l.length l

/-- Python `needle in haystack` on `String`. -/
def pyContains (hay pat : String) : Bool := containsSubL hay.data pat.data

/-- Python `haystack.replace(old, new)` on `String`. -/
def pyReplace (s old new : String) : String := ⟨replaceAllL old.data new.data s.data⟩

/-! ### A small backtracking regular-expression engine

Mirrors CPython `re` for the constructs used by the embedded regexes:
leftmost match, greedy (`*`, `+`, `?`) and lazy (`*?`, `+?`) repetition of
single-character classes, ordered alternation, optional groups, lookahead,
the anchors `^`/`$` (MULTILINE), `$` (single line) and `\Z`, and numbered
capture groups. -/

/-- Regular expressions.  Repetition is only ever applied to one-character
classes, exactly as in the embedded patterns. -/
inductive RE where
  | eps
  | cls (p : Char → Bool)
  | lit (ci : Bool) (cs : List Char)
  | seq (a b : RE)
  | alt (a b : RE)
  | opt (a : RE)
  | star (p : Char → Bool)
  | plus (p : Char → Bool)
  | lazyStar (p : Char → Bool)
  | lazyPlus (p : Char → Bool)
  | look (a : RE)
  | bos
  | bol
  | eolM
  | eolS
  | eosAbs
  | grp (n : Nat) (a : RE)

/-- Capture list: `(group, start, end)`, most recent first. -/
abbrev Caps := List (Nat × Nat × Nat)

/-- Character comparison, optionally ASCII-case-insensitive (`re.IGNORECASE`;
the case-insensitive patterns of this code base only rely on ASCII case). -/
def cEq (ci : Bool) (c d : Char) : Bool :=
  if ci then c.toLower = d.toLower else c = d

/-- Match a literal at `pos`; returns the end position. -/
def matchLit (arr : Array Char) (ci : Bool) : List Char → Nat → Option Nat
  | [], pos => some pos
  | d :: ds, pos =>
    match arr.get? pos with
    | some c => if cEq ci c d then matchLit arr ci ds (pos + 1) else none
    | none => none

/-- Greedy star over a character class: consume as much as possible, then
backtrack into the continuation `k`. -/
def starRun (arr : Array Char) (p : Char → Bool)
    (k : Nat → Option (Nat × Caps)) : Nat → Nat → Option (Nat × Caps)
  | 0, pos => k pos
  | fuel + 1, pos =>
    match arr.get? pos with
    | some c =>
      if p c then
        match starRun arr p k fuel (pos + 1) with
        | some r => some r
        | none => k pos
      else k pos
    | none => k pos

/-- Lazy star over a character class: try the continuation first, then
consume one more character. -/
def lazyStarRun (arr : Array Char) (p : Char → Bool)
    (k : Nat → Option (Nat × Caps)) : Nat → Nat → Option (Nat × Caps)
  | 0, pos => k pos
  | fuel + 1, pos =>
    match k pos with
    | some r => some r
    | none =>
      match arr.get? pos with
      | some c => if p c then lazyStarRun arr p k fuel (pos + 1) else none
      | none => none

/-- The backtracking matcher, in continuation-passing style.  The
continuation receives the position after the sub-match and the updated
capture list; alternatives are tried in CPython's preference order. -/
def reRun (arr : Array Char) : RE → Nat → Caps →
    (Nat → Caps → Option (Nat × Caps)) → Option (Nat × Caps)
  | .eps, pos, cp, k => k pos cp
  | .cls p, pos, cp, k =>
    match arr.get? pos with
    | some c => if p c then k (pos + 1) cp else none
    | none => none
  | .lit ci cs, pos, cp, k =>
    match matchLit arr ci cs pos with
    | some e => k e cp
    | none => none
  | .seq a b, pos, cp, k => reRun arr a pos cp (fun p2 c2 => reRun arr b p2 c2 k)
  | .alt a b, pos, cp, k =>
    match reRun arr a pos cp k with
    | some r => some r
    | none => reRun arr b pos cp k
  | .opt a, pos, cp, k =>
    match reRun arr a pos cp k with
    | some r => some r
    | none => k pos cp
  | .star p, pos, cp, k => starRun arr p (fun e => k e cp) (arr.size + 1 - pos) pos
  | .plus p, pos, cp, k =>
    match arr.get? pos with
    | some c =>
      if p c then starRun arr p (fun e => k e cp) (arr.size - pos) (pos + 1) else none
    | none => none
  | .lazyStar p, pos, cp, k => lazyStarRun arr p (fun e => k e cp) (arr.size + 1 - pos) pos
  | .lazyPlus p, pos, cp, k =>
    match arr.get? pos with
    | some c =>
      if p c then lazyStarRun arr p (fun e => k e cp) (arr.size - pos) (pos + 1) else none
    | none => none
  | .look a, pos, cp, k =>
    match reRun arr a pos cp (fun e c2 => some (e, c2)) with
    | some _ => k pos cp
    | none => none
  | .bos, pos, cp, k => if pos = 0 then k pos cp else none
  | .bol, pos, cp, k =>
    if pos = 0 ∨ arr.get? (pos - 1) = some '\n' then k pos cp else none
  | .eolM, pos, cp, k =>
    if pos = arr.size ∨ arr.get? pos = some '\n' then k pos cp else none
  | .eolS, pos, cp, k =>
    if pos = arr.size ∨ (pos + 1 = arr.size ∧ arr.get? pos = some '\n') then k pos cp
    else none
  | .eosAbs, pos, cp, k => if pos = arr.size then k pos cp else none
  | .grp n a, pos, cp, k => reRun arr a pos cp (fun e c2 => k e ((n, pos, e) :: c2))

/-- Anchored match attempt at `pos` (CPython `pattern.match` when `pos = 0`). -/
def reMatchAt (arr : Array Char) (re : RE) (pos : Nat) : Option (Nat × Caps) :=
  reRun arr re pos [] (fun e c => some (e, c))

/-- Leftmost match at a position `≥ pos` (worker for `re.search`). -/
def reSearchFromAux (arr : Array Char) (re : RE) : Nat → Nat → Option (Nat × Nat × Caps)
  | 0, _ => none
  | fuel + 1, pos =>
    match reMatchAt arr re pos with
    | some (e, cp) => some (pos, e, cp)
    | none => if arr.size ≤ pos then none else reSearchFromAux arr re fuel (pos + 1)

/-- CPython `re.search`: the leftmost match, as `(start, end, captures)`. -/
def reSearchL (re : RE) (l : List Char) : Option (Nat × Nat × Caps) :=
  let arr := l.toArray
  reSearchFromAux arr re (arr.size + 1) 0

/-- CPython `pattern.match`: anchored at the start of the string. -/
def reMatchL (re : RE) (l : List Char) : Option (Nat × Caps) :=
  reMatchAt l.toArray re 0

/-- Worker for `re.sub`: emit the text from `pos` on, replacing each
non-overlapping leftmost match by `repl` (all embedded replacement strings
are plain text).  The empty-match branch mirrors CPython (substitute, copy
one character, continue), though no embedded pattern can match empty. -/
def reSubAux (arr : Array Char) (re : RE) (repl : List Char) : Nat → Nat → List Char
  | 0, pos => arr.toList.drop pos
  | fuel + 1, pos =>
    match reSearchFromAux arr re (arr.size + 1 - pos) pos with
    | none => arr.toList.drop pos
    | some (s, e, _) =>
      (arr.extract pos s).toList ++ repl ++
        (if s < e then reSubAux arr re repl fuel e
         else
           match arr.get? e with
           | some c => c :: reSubAux arr re repl fuel (e + 1)
           | none => [])

/-- CPython `re.sub(re, repl, l)` on character lists. -/
def reSubL (re : RE) (repl : List Char) (l : List Char) : List Char :=
  let arr := l.toArray
  reSubAux arr re repl (arr.size + 1) 0

/-- CPython `re.sub` on `String`. -/
def reSub (re : RE) (repl : String) (s : String) : String :=
  ⟨reSubL re repl.data s.data⟩

/-- Worker for `re.finditer`: all non-overlapping matches, left to right. -/
def reFindAllAux (arr : Array Char) (re : RE) : Nat → Nat → List (Nat × Nat × Caps)
  | 0, _ => []
  | fuel + 1, pos =>
    match reSearchFromAux arr re (arr.size + 1 - pos) pos with
    | none => []
    | some (s, e, cp) =>
      (s, e, cp) ::
        (if s < e then reFindAllAux arr re fuel e
         else if arr.size ≤ e then [] else reFindAllAux arr re fuel (e + 1))

/-- CPython `re.finditer` on character lists. -/
def reFindAllL (re : RE) (l : List Char) : List (Nat × Nat × Caps) :=
  let arr := l.toArray
  reFindAllAux arr re (arr.size + 1) 0

/-- First (most recent) capture span recorded for group `n`. -/
def capGet (cp : Caps) (n : Nat) : Option (Nat × Nat) :=
  match cp.find? (fun t => t.1 = n) with
  | some (_, s, e) => some (s, e)
  | none => none

/-- Text of capture group `n` of a match over `l`. -/
def capStrL (l : List Char) (cp : Caps) (n : Nat) : List Char :=
  match capGet cp n with
  | some (s, e) => (l.toArray.extract s e).toList
  | none => []

/-! ### Character classes used by the embedded patterns -/

/-- `\s` (ASCII scope, see `isPySpace`). -/
def wsC (c : Char) : Bool := isPySpace c

/-- `[,\s]` -/
def commaWsC (c : Char) : Bool := c = ',' ∨ isPySpace c

/-- `[^"\']` -/
def notQuoteC (c : Char) : Bool := ¬(c = '"' ∨ c = squote)

/-- `[^,\.]` -/
def notCommaDotC (c : Char) : Bool := ¬(c = ',' ∨ c = '.')

/-- `[:\s]` -/
def colonWsC (c : Char) : Bool := c = ':' ∨ isPySpace c

/-- `\d` (ASCII digits; the embedded documents contain no other digits). -/
def digitC (c : Char) : Bool := c.isDigit

/-- `[0-9.]` -/
def digitDotC (c : Char) : Bool := c.isDigit ∨ c = '.'

/-- `.` under `re.DOTALL`. -/
def anyC (_ : Char) : Bool := true

/-- `.` without `re.DOTALL` (anything but a newline). -/
def anyNoNlC (c : Char) : Bool := ¬(c = '\n')

/-- `\w` restricted to the scripts of this code base: ASCII alphanumerics,
underscore, Hangul syllables and Hangul compatibility jamo. -/
def wordC (c : Char) : Bool :=
  c.isAlphanum ∨ c = '_' ∨ (0xAC00 ≤ c.toNat ∧ c.toNat ≤ 0xD7A3) ∨
    (0x3130 ≤ c.toNat ∧ c.toNat ≤ 0x318F)

/-- `["\']` -/
def quoteC (c : Char) : Bool := c = '"' ∨ c = squote

/-- Sequence a list of regexes. -/
def reSeqL (l : List RE) : RE := l.foldr RE.seq RE.eps

/-- Ordered alternation of a list of regexes (the list is never empty). -/
def reAltL : List RE → RE
  | [] => RE.eps
  | [r] => r
  | r :: rest => RE.alt r (reAltL rest)

/-- Case-sensitive literal. -/
def reStr (s : String) : RE := RE.lit false s.data

/-- Case-insensitive literal. -/
def reIStr (s : String) : RE := RE.lit true s.data

/-! ### `strip_text_instructions` (src/scripts/prompt_converter.py, lines 62-108)

The 14 removal patterns, in source order, all applied with
`re.IGNORECASE`, followed by the four clean-up substitutions and a final
`str.strip()`. -/

/-- `[,\s]*(?:include|with|add)?[,\s]*(?:bold|large|big|small)?[,\s]*(?:Korean|English|Chinese)?[,\s]*text\s*overlay[:\s]*["\'][^"\']*["\']` -/
def stiPat1 : RE := reSeqL
  [ .star commaWsC
  , .opt (reAltL [reIStr ("include"), reIStr ("with"), reIStr ("add")])
  , .star commaWsC
  , .opt (reAltL [reIStr ("bold"), reIStr ("large"), reIStr ("big"), reIStr ("small")])
  , .star commaWsC
  , .opt (reAltL [reIStr ("Korean"), reIStr ("English"), reIStr ("Chinese")])
  , .star commaWsC
  , reIStr ("text"), .star wsC, reIStr ("overlay")
  , .star colonWsC
  , .cls quoteC, .star notQuoteC, .cls quoteC ]

/-- `[,\s]*(?:bold|large|big)?[,\s]*["\'][^"\']*["\'][,\s]*(?:Korean|English)?\s*text\s*overlay` -/
def stiPat2 : RE := reSeqL
  [ .star commaWsC
  , .opt (reAltL [reIStr ("bold"), reIStr ("large"), reIStr ("big")])
  , .star commaWsC
  , .cls quoteC, .star notQuoteC, .cls quoteC
  , .star commaWsC
  , .opt (reAltL [reIStr ("Korean"), reIStr ("English")])
  , .star wsC
  , reIStr ("text"), .star wsC, reIStr ("overlay") ]

/-- `[,\s]*text\s*overlay[:\s]*["\'][^"\']*["\']` -/
def stiPat3 : RE := reSeqL
  [ .star commaWsC, reIStr ("text"), .star wsC, reIStr ("overlay")
  , .star colonWsC, .cls quoteC, .star notQuoteC, .cls quoteC ]

/-- `[,\s]*["\'][^"\']*["\'][,\s]*text` -/
def stiPat4 : RE := reSeqL
  [ .star commaWsC, .cls quoteC, .star notQuoteC, .cls quoteC
  , .star commaWsC, reIStr ("text") ]

/-- `[,\s]*include\s+(?:bold\s+)?(?:Korean\s+)?text[^,\.]*` -/
def stiPat5 : RE := reSeqL
  [ .star commaWsC, reIStr ("include"), .plus wsC
  , .opt (RE.seq (reIStr ("bold")) (.plus wsC))
  , .opt (RE.seq (reIStr ("Korean")) (.plus wsC))
  , reIStr ("text"), .star notCommaDotC ]

/-- `[,\s]*(?:bold|large)\s+(?:Korean\s+)?text[^,\.]*` -/
def stiPat6 : RE := reSeqL
  [ .star commaWsC, reAltL [reIStr ("bold"), reIStr ("large")], .plus wsC
  , .opt (RE.seq (reIStr ("Korean")) (.plus wsC))
  , reIStr ("text"), .star notCommaDotC ]

/-- `[,\s]*Korean\s+text[^,\.]*` -/
def stiPat7 : RE := reSeqL
  [ .star commaWsC, reIStr ("Korean"), .plus wsC, reIStr ("text"), .star notCommaDotC ]

/-- `[,\s]*text\s+saying[^,\.]*` -/
def stiPat8 : RE := reSeqL
  [ .star commaWsC, reIStr ("text"), .plus wsC, reIStr ("saying"), .star notCommaDotC ]

/-- `[,\s]*with\s+text[^,\.]*` -/
def stiPat9 : RE := reSeqL
  [ .star commaWsC, reIStr ("with"), .plus wsC, reIStr ("text"), .star notCommaDotC ]

/-- `[,\s]*text\s+reading[^,\.]*` -/
def stiPat10 : RE := reSeqL
  [ .star commaWsC, reIStr ("text"), .plus wsC, reIStr ("reading"), .star notCommaDotC ]

/-- `[,\s]*typography[^,\.]*` -/
def stiPat11 : RE := reSeqL
  [ .star commaWsC, reIStr ("typography"), .star notCommaDotC ]

/-- `[,\s]*lettering[^,\.]*` -/
def stiPat12 : RE := reSeqL
  [ .star commaWsC, reIStr ("lettering"), .star notCommaDotC ]

/-- `[,\s]*title\s+text[^,\.]*` -/
def stiPat13 : RE := reSeqL
  [ .star commaWsC, reIStr ("title"), .plus wsC, reIStr ("text"), .star notCommaDotC ]

/-- `[,\s]*headline[^,\.]*` -/
def stiPat14 : RE := reSeqL
  [ .star commaWsC, reIStr ("headline"), .star notCommaDotC ]

/-- The 14 `text_patterns` of `strip_text_instructions`, in source order. -/
def textPatterns : List RE :=
  [ stiPat1, stiPat2, stiPat3, stiPat4, stiPat5, stiPat6, stiPat7
  , stiPat8, stiPat9, stiPat10, stiPat11, stiPat12, stiPat13, stiPat14 ]

/-- Clean-up pattern `,\s*,` (replaced by `,`). -/
def cleanPatCommas : RE := reSeqL [reStr (","), .star wsC, reStr (",")]

/-- Clean-up pattern `\s+` (replaced by a single space). -/
def cleanPatWs : RE := RE.plus wsC

/-- Clean-up pattern `,\s*$` (removed; `$` without MULTILINE). -/
def cleanPatTrail : RE := reSeqL [reStr (","), .star wsC, RE.eolS]

/-- Clean-up pattern `^\s*,` (removed; `^` without MULTILINE). -/
def cleanPatLead : RE := reSeqL [RE.bos, .star wsC, reStr (",")]

/-- The four clean-up substitutions and the final `strip()` of
`strip_text_instructions`. -/
def stiCleanupL (l : List Char) : List Char :=
  pyStripL (reSubL cleanPatLead []
    (reSubL cleanPatTrail []
      (reSubL cleanPatWs [' ']
        (reSubL cleanPatCommas [','] l))))

/-- `strip_text_instructions` on character lists: the 14 removal
substitutions in order, then the clean-up phase. -/
def stripTextInstructionsL (l : List Char) : List Char :=
  stiCleanupL (textPatterns.foldl (fun acc p => reSubL p [] acc) l)

/-- `strip_text_instructions(prompt)` (src/scripts/prompt_converter.py,
lines 62-108). -/
def strip_text_instructions (prompt : String) : String :=
  ⟨stripTextInstructionsL prompt.data⟩

/-! ### gemini_image.py: result records (lines 37-74) -/

/-- `ImageResult` (src/scripts/gemini_image.py, lines 37-51).  Python
floats are modelled as exact rationals. -/
structure ImageResult where
  success : Bool
  file_path : Option String := none
  prompt : String := ""
  model_used : String := ""
  error_message : Option String := none
  generation_time : ℚ := 0
  deriving Repr, DecidableEq

/-- `BatchResult` (src/scripts/gemini_image.py, lines 54-74). -/
structure BatchResult where
  total : ℤ := 0
  success_count : ℤ := 0
  failed_count : ℤ := 0
  results : List ImageResult := []
  total_time : ℚ := 0
  deriving Repr, DecidableEq

/-- `BatchResult.success_rate` (src/scripts/gemini_image.py, lines 63-67):
`0.0` when `total == 0`, else `(success_count / total) * 100`. -/
def BatchResult.success_rate (b : BatchResult) : ℚ :=
  if b.total = 0 then 0 else (b.success_count : ℚ) / (b.total : ℚ) * 100

/-- The success fraction as the spec's sentence describes it
(`successRate = successCount/total`, 0 when total is 0) — for comparison
with the implementation. -/
def claimedSuccessRate (b : BatchResult) : ℚ :=
  if b.total = 0 then 0 else (b.success_count : ℚ) / (b.total : ℚ)

/-- A concrete half-successful batch. -/
def brHalf : BatchResult := { total := 2, success_count := 1, failed_count := 1 }

/-! ### text_overlay.py: the line-spacing constant (line 129) -/

/-- CPython `int()` applied to a float value: truncation toward zero. -/
def pyTrunc (q : ℚ) : ℤ := if q < 0 then -(⌊-q⌋) else ⌊q⌋

/-- `line_spacing = max(6, int(elem.font_size * 0.18))`
(src/scripts/text_overlay.py, line 129).  The CPython double product
`font_size * 0.18` truncates to the same integer as the exact rational
product for every `|font_size| < 10^6` (checked exhaustively against
CPython), so the rational model below is exact on every realistic font
size. -/
def lineSpacingOf (fontSize : ℤ) : ℤ :=
  max 6 (pyTrunc ((fontSize : ℚ) * 0.18))

/-- The vertical cursor of the drawing loop (src/scripts/text_overlay.py,
lines 158-185): each wrapped line is drawn at the current `y_cursor`
(a CPython float, modelled in `ℚ`), which then advances by that line's
height plus `line_spacing`. -/
def lineYs (blockTop : ℚ) (spacing : ℤ) : List ℤ → List ℚ
  | [] => []
  | h :: hs => blockTop :: lineYs (blockTop + (h : ℚ) + (spacing : ℚ)) spacing hs

/-- Differences between consecutive drawn y positions. -/
def consecutiveGaps : List ℚ → List ℚ
  | y1 :: y2 :: ys => (y2 - y1) :: consecutiveGaps (y2 :: ys)
  | _ => []

/-! ### text_overlay.py: `_parse_color` (lines 461-514) -/

/-- Value of one hexadecimal digit character. -/
def hexVal (c : Char) : Option Nat :=
  if 48 ≤ c.toNat ∧ c.toNat ≤ 57 then some (c.toNat - 48)
  else if 97 ≤ c.toNat ∧ c.toNat ≤ 102 then some (c.toNat - 87)
  else if 65 ≤ c.toNat ∧ c.toNat ≤ 70 then some (c.toNat - 55)
  else none

/-- Accumulating worker for the digit part of CPython `int(s, 16)`:
an underscore is legal only between two digits. -/
def hexCoreAux (acc : Nat) : List Char → Option Nat
  | [] => some acc
  | c :: rest =>
    if c = '_' then
      match rest with
      | c2 :: rest2 =>
        match hexVal c2 with
        | some v => hexCoreAux (acc * 16 + v) rest2
        | none => none
      | [] => none
    else
      match hexVal c with
      | some v => hexCoreAux (acc * 16 + v) rest
      | none => none

/-- Digit part of CPython `int(s, 16)`: at least one digit, which may not
be an underscore. -/
def hexFirst : List Char → Option Nat
  | [] => none
  | c :: rest =>
    match hexVal c with
    | some v => hexCoreAux v rest
    | none => none

/-- The part of CPython `int(s, 16)` after whitespace and sign: an
optional `0x`/`0X` prefix (optionally followed by one underscore), then
hex digits with underscores allowed between digits. -/
def pyIntHexBody : List Char → Option Nat
  | b0 :: bx :: r =>
    if b0 = '0' ∧ (bx = 'x' ∨ bx = 'X') then
      match r with
      | u :: r2 => if u = '_' then hexFirst r2 else hexFirst r
      | [] => hexFirst []
    else hexFirst (b0 :: bx :: r)
  | l => hexFirst l

/-- CPython `int(s, 16)` after stripping: an optional sign, then the body. -/
def pyIntHexCore : List Char → Option ℤ
  | [] => none
  | c :: rest =>
    if c = '-' then (pyIntHexBody rest).map (fun n => -(n : ℤ))
    else if c = '+' then (pyIntHexBody rest).map (fun n => (n : ℤ))
    else (pyIntHexBody (c :: rest)).map (fun n => (n : ℤ))

/-- CPython `int(s, 16)`: surrounding whitespace, an optional sign, an
optional `0x`/`0X` prefix, then hex digits with underscores allowed
between digits.  `none` models the `ValueError` raise. -/
def pyIntHexL (l : List Char) : Option ℤ :=
  pyIntHexCore (pyStripL l)

/-- Numeric value of a run of ASCII digits (CPython `int(s)` on a `\d+`
capture, which can contain nothing but digits). -/
def natOfDigitsL (l : List Char) : Nat :=
  l.foldl (fun a c => a * 10 + (c.toNat - 48)) 0

/-- CPython `float(s)` for an `[0-9.]+` capture: digits with at most one
dot and at least one digit.  The decimal value is modelled exactly in `ℚ`
(CPython rounds it to a double; no theorem below depends on that
difference).  `none` models the `ValueError` raise. -/
def pyFloatDotted (l : List Char) : Option ℚ :=
  match splitCharL '.' l with
  | [a] =>
    if a ≠ [] ∧ a.all (fun c => c.isDigit) then some (natOfDigitsL a : ℚ) else none
  | [a, b] =>
    if (a ≠ [] ∨ b ≠ []) ∧ a.all (fun c => c.isDigit) ∧ b.all (fun c => c.isDigit) then
      some ((natOfDigitsL a : ℚ) + (natOfDigitsL b : ℚ) / ((10 : ℚ) ^ b.length))
    else none
  | _ => none

/-- RGBA quadruple as `_parse_color` returns it (CPython ints). -/
abbrev RGBA := ℤ × ℤ × ℤ × ℤ

/-- Opaque white, the fallback colour. -/
def colorWhite : RGBA := (255, 255, 255, 255)

/-- `rgba\(\s*(\d+)\s*,\s*(\d+)\s*,\s*(\d+)\s*,\s*([0-9.]+)\s*\)` with
`re.IGNORECASE`. -/
def rgbaRE : RE := reSeqL
  [ reIStr ("rgba("), .star wsC, .grp 1 (.plus digitC), .star wsC, reStr (",")
  , .star wsC, .grp 2 (.plus digitC), .star wsC, reStr (",")
  , .star wsC, .grp 3 (.plus digitC), .star wsC, reStr (",")
  , .star wsC, .grp 4 (.plus digitDotC), .star wsC, reStr (")") ]

/-- `rgb\(\s*(\d+)\s*,\s*(\d+)\s*,\s*(\d+)\s*\)` with `re.IGNORECASE`. -/
def rgbRE : RE := reSeqL
  [ reIStr ("rgb("), .star wsC, .grp 1 (.plus digitC), .star wsC, reStr (",")
  , .star wsC, .grp 2 (.plus digitC), .star wsC, reStr (",")
  , .star wsC, .grp 3 (.plus digitC), .star wsC, reStr (")") ]

/-- The `rgba(...)` / `rgb(...)` / white-fallback tail of `_parse_color`
(applied to the stripped value, also reached on `#`-strings whose payload
has a length other than 3, 6 or 8). -/
def colorFallback (v : List Char) : Except PyErr RGBA :=
  match reMatchL rgbaRE v with
  | some (_, caps) =>
    let r := (natOfDigitsL (capStrL v caps 1) : ℤ)
    let g := (natOfDigitsL (capStrL v caps 2) : ℤ)
    let b := (natOfDigitsL (capStrL v caps 3) : ℤ)
    match pyFloatDotted (capStrL v caps 4) with
    | some alpha => .ok (r, g, b, pyTrunc (max 0 (min 1 alpha) * 255))
    | none => .error .valueError
  | none =>
    match reMatchL rgbRE v with
    | some (_, caps) =>
      .ok ((natOfDigitsL (capStrL v caps 1) : ℤ), (natOfDigitsL (capStrL v caps 2) : ℤ),
        (natOfDigitsL (capStrL v caps 3) : ℤ), 255)
    | none => .ok colorWhite

/-- The `#`-hex branch of `_parse_color`: payload lengths 3, 6 and 8 parse
pairs of (doubled) digits with `int(_, 16)`; any other length falls
through to the regex forms. -/
def hexBranch (v : List Char) : Except PyErr RGBA :=
  match v.drop 1 with
  | [a, b, c] =>
    match pyIntHexL [a, a], pyIntHexL [b, b], pyIntHexL [c, c] with
    | some r, some g, some bl => .ok (r, g, bl, 255)
    | _, _, _ => .error .valueError
  | [a1, a2, b1, b2, c1, c2] =>
    match pyIntHexL [a1, a2], pyIntHexL [b1, b2], pyIntHexL [c1, c2] with
    | some r, some g, some bl => .ok (r, g, bl, 255)
    | _, _, _ => .error .valueError
  | [a1, a2, b1, b2, c1, c2, d1, d2] =>
    match pyIntHexL [a1, a2], pyIntHexL [b1, b2], pyIntHexL [c1, c2], pyIntHexL [d1, d2] with
    | some r, some g, some bl, some al => .ok (r, g, bl, al)
    | _, _, _, _ => .error .valueError
  | _ => colorFallback v

/-- `_parse_color(value)` (src/scripts/text_overlay.py, lines 461-514).
`Except.error` models an uncaught `ValueError` from `int(_, 16)` or
`float(_)`. -/
def parse_color (value : String) : Except PyErr RGBA :=
  if value.data = [] then .ok colorWhite
  else
    let v := pyStripL value.data
    if startsWithL v ['#'] then hexBranch v
    else colorFallback v

/-! ### text_overlay.py: `_wrap_text` (lines 561-599)

The rendered-width closure `width_of` (built from `draw.textbbox` and the
loaded font, lines 567-569) is abstracted as an explicit function
parameter; everything else is the source control flow. -/

/-- The space-based wrap loop of `_wrap_text` (lines 572-585): `cur` is
`current`, words are accumulated while the candidate line stays within
budget, and a line is flushed (never empty) on overflow.  The source's
`candidate = f"{current} {word}".strip() if current else word` and
`if width_of(candidate) <= max_width or not current` are written here with
the `current`-emptiness test pulled to the front: when `current` is falsy
the condition short-circuits to true and `candidate` is the bare word, so
the two shapes take identical steps. -/
def wrapLoopSpace (widthOf : List Char → ℤ) (maxWidth : ℤ) :
    List (List Char) → List Char → List (List Char)
  | [], cur => if cur ≠ [] then [cur] else []
  | w :: ws, cur =>
    if cur = [] then wrapLoopSpace widthOf maxWidth ws w
    else if widthOf (pyStripL (cur ++ ' ' :: w)) ≤ maxWidth then
      wrapLoopSpace widthOf maxWidth ws (pyStripL (cur ++ ' ' :: w))
    else cur :: wrapLoopSpace widthOf maxWidth ws w

/-- The character-based fallback wrap loop of `_wrap_text` (lines 587-599),
used when the text contains no space; same `or not current` short-circuit
convention as `wrapLoopSpace`. -/
def wrapLoopChar (widthOf : List Char → ℤ) (maxWidth : ℤ) :
    List Char → List Char → List (List Char)
  | [], cur => if cur ≠ [] then [cur] else []
  | ch :: rest, cur =>
    if cur = [] then wrapLoopChar widthOf maxWidth rest [ch]
    else if widthOf (cur ++ [ch]) ≤ maxWidth then wrapLoopChar widthOf maxWidth rest (cur ++ [ch])
    else cur :: wrapLoopChar widthOf maxWidth rest [ch]

/-- `_wrap_text(draw, text, font, max_width)` (src/scripts/text_overlay.py,
lines 561-599). -/
def wrap_text (widthOf : List Char → ℤ) (maxWidth : ℤ) (text : List Char) :
    List (List Char) :=
  if text = [] then []
  else if containsSubL text ['\n'] then
    (pySplitLinesL text).filter (fun l => pyStripL l ≠ [])
  else if containsSubL text [' '] then
    wrapLoopSpace widthOf maxWidth ((splitCharL ' ' text).filter (fun w => w ≠ [])) []
  else wrapLoopChar widthOf maxWidth text []

/-- Join lines with single spaces (the claim's re-joining operation). -/
def joinSpacesL : List (List Char) → List Char
  | [] => []
  | [w] => w
  | w :: ws => w ++ ' ' :: joinSpacesL ws

/-- The claim's whitespace normalization: runs of spaces collapsed to one
space, leading and trailing spaces removed. -/
def normalizeSpacesL (text : List Char) : List Char :=
  joinSpacesL ((splitCharL ' ' text).filter (fun w => w ≠ []))

/-- A concrete rendered-width function for closed counterexamples and
witnesses: one width unit per character. -/
def lenWidth (l : List Char) : ℤ := l.length

/-! ### prompt_converter.py: style translation (lines 255-332) -/

/-- `color_map` of `translate_color` (lines 257-274), in source order. -/
def color_map : List (String × String) :=
  [ ("파스텔 블루", "soft pastel blue")
  , ("파스텔 핑크", "soft pastel pink")
  , ("민트 그린", "mint green, seafoam")
  , ("따뜻한 노랑", "warm yellow, golden yellow")
  , ("네이비", "navy blue, deep blue")
  , ("골드", "gold, champagne gold")
  , ("코랄 핑크", "coral pink, soft coral")
  , ("그레이", "gray, neutral gray")
  , ("화이트", "white, clean white")
  , ("블랙", "black, elegant black")
  , ("베이지", "beige, warm beige")
  , ("그린", "green, fresh green")
  , ("오렌지", "orange, warm orange")
  , ("레드", "red, vibrant red")
  , ("퍼플", "purple, elegant purple")
  , ("그라데이션", "gradient") ]

/-- `mood_map` of `translate_mood` (lines 285-302), in source order. -/
def mood_map : List (String × String) :=
  [ ("따뜻한", "warm, cozy")
  , ("친근한", "friendly, approachable")
  , ("전문적", "professional, expert")
  , ("신뢰감", "trustworthy, reliable")
  , ("깔끔한", "clean, neat")
  , ("모던한", "modern, contemporary")
  , ("세련된", "sophisticated, elegant")
  , ("밝은", "bright, cheerful")
  , ("차분한", "calm, serene")
  , ("활기찬", "energetic, lively")
  , ("감성적", "emotional, sentimental")
  , ("정보성", "informative, educational")
  , ("눈에 띄는", "eye-catching, attention-grabbing")
  , ("클릭 유도", "click-worthy, engaging")
  , ("희망적", "hopeful, optimistic")
  , ("사랑스러운", "lovely, adorable") ]

/-- `format_map` of `translate_format` (lines 314-325), in source order. -/
def format_map : List (String × String) :=
  [ ("인포그래픽", "infographic, data visualization")
  , ("일러스트", "illustration, illustrated")
  , ("사진풍", "photographic, photo-realistic")
  , ("플랫디자인", "flat design, minimalist")
  , ("모던 썸네일", "modern thumbnail design")
  , ("차트", "chart, graph")
  , ("다이어그램", "diagram, flowchart")
  , ("체크리스트", "checklist, list design")
  , ("비교표", "comparison table, comparison chart")
  , ("프로세스", "process diagram, step-by-step") ]

/-- The `for kr, en in map: if kr in s: return s.replace(kr, en)` loop of
`translate_color`: the first matching key substitutes (all its
occurrences) and the loop returns immediately. -/
def translateFirst : List (String × String) → String → String
  | [], s => s
  | (k, v) :: rest, s =>
    if pyContains s k then pyReplace s k v else translateFirst rest s

/-- `translate_color(korean_color)` (lines 255-280). -/
def translate_color (korean_color : String) : String :=
  translateFirst color_map korean_color

/-- The `result = result.replace(kr, en) if kr in result` loop of
`translate_mood` / `translate_format`: every key is tried in order on the
evolving result. -/
def translateAll : List (String × String) → String → String
  | [], s => s
  | (k, v) :: rest, s =>
    translateAll rest (if pyContains s k then pyReplace s k v else s)

/-- `translate_mood(korean_mood)` (lines 283-309). -/
def translate_mood (korean_mood : String) : String :=
  translateAll mood_map korean_mood

/-- `translate_format(korean_format)` (lines 312-332). -/
def translate_format (korean_format : String) : String :=
  translateAll format_map korean_format

/-- Spec-side reading of the colour rule: find the first key (in mapping
order) occurring as a substring and substitute it; otherwise identity. -/
def firstMatchSpec (m : List (String × String)) (s : String) : String :=
  match m.find? (fun kv => pyContains s kv.1) with
  | some kv => pyReplace s kv.1 kv.2
  | none => s

/-- Spec-side reading of the mood/format rule: fold every matching key's
substitution over the evolving string, in mapping order. -/
def seqSubstSpec (m : List (String × String)) (s : String) : String :=
  m.foldl (fun r kv => if pyContains r kv.1 then pyReplace r kv.1 kv.2 else r) s

/-! ### text_overlay.py: text elements and `add_text_to_existing_image`
(lines 27-47, 285-447)

`add_text_to_existing_image` duck-types its `text_config` argument: the
fields it reads with bare attribute access (`main_text_y`, `sub_text_y`)
raise `AttributeError` when absent — in particular they are absent on the
documented argument type, `prompt_converter.TextOverlayConfig` — while the
watermark-family fields are probed with `getattr(…, default)`.  `DuckConfig`
models such an object: `Option` fields with `none` meaning the attribute is
missing (for the `_y` fields a present-but-`None` Python value behaves like
the empty string and is modelled as `some ""`). -/

/-- `TextElement` (src/scripts/text_overlay.py, lines 27-47), with the
dataclass defaults. -/
structure TextElement where
  text : String
  x : ℤ
  y : ℤ
  font_size : ℤ := 48
  font_family : String := "Pretendard, Nanum Gothic, sans-serif"
  font_weight : String := "bold"
  fill : String := "#FFFFFF"
  text_anchor : String := "middle"
  shadow : Bool := true
  shadow_color : String := "rgba(0,0,0,0.5)"
  shadow_offset_x : ℤ := 2
  shadow_offset_y : ℤ := 2
  background_box : Bool := false
  background_box_color : String := "rgba(0,0,0,0.3)"
  background_box_padding : ℤ := 20
  background_box_radius : ℤ := 10
  deriving Repr, DecidableEq

/-- `TextOverlayConfig` (src/scripts/text_overlay.py, lines 49-57). -/
structure TOConfig where
  background_image_path : String
  output_path : String
  width : ℤ := 0
  height : ℤ := 0
  text_elements : List TextElement := []
  deriving Repr, DecidableEq

/-- The result dictionary of `process` / `add_text_to_existing_image`. -/
structure PyResult where
  success : Bool
  output_path : Option String
  error : Option String
  deriving Repr, DecidableEq

/-- A duck-typed overlay configuration object.  The non-`Option` fields and
their defaults are exactly `prompt_converter.TextOverlayConfig` (lines
14-29); the `Option` fields are the attributes `add_text_to_existing_image`
reads beyond that dataclass, with `none` = attribute missing. -/
structure DuckConfig where
  main_text : String := ""
  sub_text : String := ""
  position : String := "center"
  font_size : ℤ := 48
  font_color : String := "#FFFFFF"
  font_family : String := "Pretendard, Nanum Gothic, sans-serif"
  shadow : Bool := true
  shadow_color : String := "rgba(0,0,0,0.5)"
  shadow_offset : ℤ := 2
  background_box : Bool := false
  background_box_color : String := "rgba(0,0,0,0.3)"
  background_box_padding : ℤ := 20
  main_text_y : Option String := none
  sub_text_y : Option String := none
  font_weight : Option String := none
  sub_font_size : Option ℤ := none
  sub_font_color : Option String := none
  watermark_enabled : Option Bool := none
  watermark_text : Option String := none
  watermark_margin_bottom : Option ℤ := none
  watermark_font_size : Option ℤ := none
  watermark_font_color : Option String := none
  deriving Repr, DecidableEq

/-- A default `prompt_converter.TextOverlayConfig` instance (all dataclass
defaults; none of the extra attributes exist on it). -/
def pcDefaultConfig : DuckConfig := {}

/-- Single decimal digit value. -/
def decVal (c : Char) : Option Nat :=
  if 48 ≤ c.toNat ∧ c.toNat ≤ 57 then some (c.toNat - 48) else none

/-- Digit run with underscores allowed between digits (worker). -/
def decCoreAux (acc : Nat) : List Char → Option Nat
  | [] => some acc
  | c :: rest =>
    if c = '_' then
      match rest with
      | c2 :: rest2 =>
        match decVal c2 with
        | some v => decCoreAux (acc * 10 + v) rest2
        | none => none
      | [] => none
    else
      match decVal c with
      | some v => decCoreAux (acc * 10 + v) rest
      | none => none

/-- Digit run with underscores allowed between digits: at least one digit
first. -/
def decFirst : List Char → Option Nat
  | [] => none
  | c :: rest =>
    match decVal c with
    | some v => decCoreAux v rest
    | none => none

/-- CPython `int(s)` (base 10): whitespace, optional sign, digits with
underscores between digits. -/
def pyIntDecL (l : List Char) : Option ℤ :=
  match pyStripL l with
  | [] => none
  | c :: rest =>
    if c = '-' then (decFirst rest).map (fun n => -(n : ℤ))
    else if c = '+' then (decFirst rest).map (fun n => (n : ℤ))
    else (decFirst (c :: rest)).map (fun n => (n : ℤ))

/-- Fractional value of a digit run (as the digits after a decimal dot). -/
def fracOfDigits (l : List Char) : ℚ :=
  (natOfDigitsL (l.filter (fun c => c ≠ '_')) : ℚ) /
    ((10 : ℚ) ^ (l.filter (fun c => c ≠ '_')).length)

/-- A CPython `float` value: a finite double (kept exact in `ℚ` per the
float convention in the module docstring), a signed infinity, or `nan`. -/
inductive PyFloat where
  | finite (q : ℚ)
  | inf (neg : Bool)
  | nan
  deriving Repr, DecidableEq

/-- The IEEE-754 binary64 overflow threshold: rounding to nearest (ties to
even) sends an exact value `q` to `+inf` exactly when `2^1024 - 2^970 ≤ q`. -/
def dblOvf : ℚ := 2 ^ 1024 - 2 ^ 970

/-- Conversion of an exact rational to the `float` model: finite values are
kept exact, magnitudes at or beyond the overflow threshold become the
corresponding infinity. -/
def toDouble (q : ℚ) : PyFloat :=
  if dblOvf ≤ q then .inf false
  else if q ≤ -dblOvf then .inf true
  else .finite q

/-- The finite-magnitude part of a CPython `float` literal (after the
optional sign): digits with underscores between digits, an optional
fractional part and an optional decimal exponent.  Exact in `ℚ`. -/
def pyFloatMagL (t1 : List Char) : Option ℚ :=
  match splitFirstL '.' t1 with
  | none =>
    match splitFirstL 'e' (t1.map Char.toLower) with
    | none => (decFirst t1).map (fun n => (n : ℚ))
    | some (m, e) => do
      let mv ← decFirst m
      let ev ← pyIntDecL e
      pure ((mv : ℚ) * (10 : ℚ) ^ (ev : ℤ))
  | some (ip, rest) =>
    match splitFirstL 'e' (rest.map Char.toLower) with
    | none => do
      let _ ← if ip = [] ∧ rest = [] then none else some 0
      let iv ← if ip = [] then pure 0 else decFirst ip
      let fv ← if rest = [] then pure (0 : ℚ) else
        (decFirst rest).map (fun _ => fracOfDigits rest)
      pure ((iv : ℚ) + fv)
    | some (fp, e) => do
      let _ ← if ip = [] ∧ fp = [] then none else some 0
      let iv ← if ip = [] then pure 0 else decFirst ip
      let fv ← if fp = [] then pure (0 : ℚ) else
        (decFirst fp).map (fun _ => fracOfDigits fp)
      let ev ← pyIntDecL e
      pure (((iv : ℚ) + fv) * (10 : ℚ) ^ (ev : ℤ))

/-- CPython `float(s)`: whitespace, an optional sign, then an
`inf`/`infinity`/`nan` spelling (case-insensitive) or a finite decimal
literal.  Finite values are exact in `ℚ`; a literal whose magnitude reaches
the binary64 overflow threshold yields the signed infinity, exactly as
CPython's `float` does (e.g. `float('1e400') = inf`). -/
def pyFloatGenL (l : List Char) : Option PyFloat :=
  match pyStripL l with
  | [] => none
  | t =>
    let (neg, t1) : Bool × List Char :=
      match t with
      | '-' :: r => (true, r)
      | '+' :: r => (false, r)
      | r => (false, r)
    if t1.map Char.toLower = ("inf").data ∨ t1.map Char.toLower = ("infinity").data then
      some (.inf neg)
    else if t1.map Char.toLower = ("nan").data then some .nan
    else (pyFloatMagL t1).map (fun q => toDouble (if neg then -q else q))

/-- Multiplication of a Python `int` by a `float` (the `height * percent` at
src/scripts/text_overlay.py, line 303): the exact product, overflowed to an
infinity past the binary64 threshold; an infinity keeps or flips its sign
with the integer's sign and becomes `nan` when the integer is zero. -/
def pfMulInt (n : ℤ) : PyFloat → PyFloat
  | .finite q => toDouble ((n : ℚ) * q)
  | .inf b => if n = 0 then .nan else if n < 0 then .inf (!b) else .inf b
  | .nan => .nan

/-- Division of a `float` by 100 (line 303): exact on finite values (it can
only shrink, so no overflow), fixed on infinities and `nan`. -/
def pfDiv100 : PyFloat → PyFloat
  | .finite q => .finite (q / 100)
  | .inf b => .inf b
  | .nan => .nan

/-- `_parse_y_position(y_value, height)` (src/scripts/text_overlay.py,
lines 285-310): percentage or absolute pixel, defaulting to the vertical
centre.  Only `ValueError` is caught (lines 304 and 309): a percent value
that makes `height * percent / 100` an infinity turns `int(...)` at line
303 into an uncaught `OverflowError` (e.g. `inf%`, `1e400%`), while a `nan`
result raises the caught `ValueError` and falls back to the default.
Python `//` is floor division (`Int.fdiv`). -/
def parse_y_position (y_value : String) (height : ℤ) : Except PyErr ℤ :=
  if y_value = "" then .ok (Int.fdiv height 2)
  else
    let y_str := pyStripL y_value.data
    if y_str.getLast? = some '%' then
      match pyFloatGenL (y_str.dropLast) with
      | none => .ok (Int.fdiv height 2)
      | some pf =>
        match pfDiv100 (pfMulInt height pf) with
        | .finite q => .ok (pyTrunc q)
        | .inf _ => .error PyErr.overflowError
        | .nan => .ok (Int.fdiv height 2)
    else
      match pyIntDecL y_str with
      | some n => .ok n
      | none => .ok (Int.fdiv height 2)

/-- The `position_x_map.get(position, center_x)` lookup
(src/scripts/text_overlay.py, lines 346-357). -/
def positionX (position : String) (width : ℤ) : ℤ :=
  if position = "center" ∨ position = "top" ∨ position = "bottom" ∨
      position = "bottom-center" then Int.fdiv width 2
  else if position = "top-left" ∨ position = "bottom-left" then Int.fdiv width 6
  else if position = "top-right" ∨ position = "bottom-right" then Int.fdiv (width * 5) 6
  else Int.fdiv width 2

/-- The sub-text element of `add_text_to_existing_image` (lines 386-410):
empty when `sub_text` is empty; otherwise line 388 reads
`text_config.sub_text_y` (`AttributeError` when the attribute is missing),
a truthy value is parsed as a Y position (whose uncaught `OverflowError`
propagates) and a falsy one falls back to
`main_y + font_size // 2 + max(20, int(font_size * 0.8))`. -/
def subElementsOf (cfg : DuckConfig) (x main_y height : ℤ) (anchor : String) :
    Except PyErr (List TextElement) :=
  if cfg.sub_text ≠ "" then
    match cfg.sub_text_y with
    | none => .error PyErr.attributeError
    | some v =>
      match (if v ≠ "" then parse_y_position v height
             else .ok (main_y + Int.fdiv cfg.font_size 2 +
               max 20 (pyTrunc ((cfg.font_size : ℚ) * 0.8)))) with
      | .error e => .error e
      | .ok sub_y =>
        .ok [{ text := cfg.sub_text, x := x, y := sub_y
             , font_size := cfg.sub_font_size.getD (pyTrunc ((cfg.font_size : ℚ) * 0.5))
             , font_family := cfg.font_family, font_weight := "regular"
             , fill := cfg.sub_font_color.getD cfg.font_color
             , text_anchor := anchor, shadow := cfg.shadow }]
  else .ok []

/-- The watermark element of `add_text_to_existing_image` (lines 412-436):
present whenever the `getattr`-probed `watermark_enabled` (default `True`)
and `watermark_text` (default `@money-lab-brian`) are truthy. -/
def watermarkElemsOf (cfg : DuckConfig) (center_x height : ℤ) : List TextElement :=
  if cfg.watermark_enabled.getD true ∧ cfg.watermark_text.getD ("@money-lab-brian") ≠ "" then
    [{ text := cfg.watermark_text.getD ("@money-lab-brian"), x := center_x
     , y := height - cfg.watermark_margin_bottom.getD 60
     , font_size := cfg.watermark_font_size.getD 18
     , font_family := cfg.font_family, font_weight := "light"
     , fill := cfg.watermark_font_color.getD ("rgba(255,255,255,0.6)")
     , text_anchor := "middle", shadow := false }]
  else []

/-- The element-building phase of `add_text_to_existing_image`
(src/scripts/text_overlay.py, lines 345-436): main text (line 360 reads
`text_config.main_text_y` unconditionally — `AttributeError` when the
attribute is missing, and an infinite percent value raises an uncaught
`OverflowError` out of `_parse_y_position`), optional sub text, then the
watermark. -/
def buildTextElements (cfg : DuckConfig) (width height : ℤ) :
    Except PyErr (List TextElement) :=
  match cfg.main_text_y with
  | none => .error PyErr.attributeError
  | some myv =>
    match parse_y_position myv height with
    | .error e => .error e
    | .ok main_y =>
      let x := positionX cfg.position width
      let anchor : String := if pyContains cfg.position ("left") then "start" else "middle"
      let mainElems : List TextElement :=
        if cfg.main_text ≠ "" then
          [{ text := cfg.main_text, x := x, y := main_y, font_size := cfg.font_size
           , font_family := cfg.font_family
           , font_weight := cfg.font_weight.getD ("bold")
           , fill := cfg.font_color, text_anchor := anchor
           , shadow := cfg.shadow, shadow_color := cfg.shadow_color
           , shadow_offset_x := cfg.shadow_offset, shadow_offset_y := cfg.shadow_offset
           , background_box := cfg.background_box
           , background_box_color := cfg.background_box_color
           , background_box_padding := cfg.background_box_padding }]
        else []
      match subElementsOf cfg x main_y height anchor with
      | .error e => .error e
      | .ok subElems =>
        .ok (mainElems ++ subElems ++ watermarkElemsOf cfg (Int.fdiv width 2) height)

/-- Environment of effectful outcomes for `TextOverlayProcessor.process`:
Pillow import, image open (yields the size), any exception inside the
per-element drawing loop, directory creation and the final save.  All of
these are raised inside the method's single `try` and therefore surface as
a failure result, never as an exception. -/
structure ProcEnv where
  pillowErr : Option String := none
  openImg : Except String (ℤ × ℤ) := .ok (1024, 1024)
  renderErr : Option String := none
  mkdirErr : Option String := none
  saveErr : Option String := none
  deriving Repr, DecidableEq

/-- `TextOverlayProcessor.process(config)` (src/scripts/text_overlay.py,
lines 94-200): the whole body sits inside `try/except Exception`, so every
failure returns `success=False` with the message, writes nothing, and no
exception escapes. -/
def process (env : ProcEnv) (config : TOConfig) : PyResult :=
  match env.pillowErr with
  | some e => { success := false, output_path := none, error := some e }
  | none =>
    match env.openImg with
    | .error e => { success := false, output_path := none, error := some e }
    | .ok _ =>
      match env.renderErr with
      | some e => { success := false, output_path := none, error := some e }
      | none =>
        match env.mkdirErr with
        | some e => { success := false, output_path := none, error := some e }
        | none =>
          match env.saveErr with
          | some e => { success := false, output_path := none, error := some e }
          | none => { success := true, output_path := some config.output_path, error := none }

/-- `add_text_to_existing_image(image_path, text_config, output_path)`
(src/scripts/text_overlay.py, lines 313-447).  The Pillow import and the
`Image.open` are each wrapped in their own `try` and return failure
results; the element-building phase is NOT guarded, so its
`AttributeError` propagates to the caller (modelled as `Except.error`). -/
def add_text_to_existing_image (env : ProcEnv) (image_path : String)
    (cfg : DuckConfig) (output_path : Option String) : Except PyErr PyResult := do
  match env.pillowErr with
  | some e => pure { success := false, output_path := none, error := some e }
  | none =>
    match env.openImg with
    | .error e => pure { success := false, output_path := none, error := some e }
    | .ok (width, height) => do
      let elems ← buildTextElements cfg width height
      let final_output : String :=
        match output_path with
        | some s => if s ≠ "" then s else image_path
        | none => image_path
      pure (process env { background_image_path := image_path
                        , output_path := final_output, text_elements := elems })

/-- A fully healthy environment: Pillow imports, the image opens as
1024×1024, and the filesystem cooperates. -/
def envOK : ProcEnv := {}

/-- The watermark `TextElement` that the default configuration appends:
`@money-lab-brian`, font size 18, no shadow, horizontally centred,
60 pixels above the bottom edge. -/
def watermarkElem (width height : ℤ) (font_family : String) : TextElement :=
  { text := "@money-lab-brian", x := Int.fdiv width 2, y := height - 60
  , font_size := 18, font_family := font_family, font_weight := "light"
  , fill := "rgba(255,255,255,0.6)", text_anchor := "middle", shadow := false }

/-- A config a caller might build for `add_text_to_existing_image`: the
dataclass defaults plus a `main_text_y` attribute (and no watermark
attributes). -/
def cfgWithY : DuckConfig := { pcDefaultConfig with main_text_y := some ("") }

/-! ### prompt_converter.py: data classes and the guide parser
(lines 14-59, 335-551) -/

/-- `TextOverlayConfig` (src/scripts/prompt_converter.py, lines 14-29),
with the dataclass defaults. -/
structure PCOverlayConfig where
  main_text : String := ""
  sub_text : String := ""
  position : String := "center"
  font_size : ℤ := 48
  font_color : String := "#FFFFFF"
  font_family : String := "Pretendard, Nanum Gothic, sans-serif"
  shadow : Bool := true
  shadow_color : String := "rgba(0,0,0,0.5)"
  shadow_offset : ℤ := 2
  background_box : Bool := false
  background_box_color : String := "rgba(0,0,0,0.3)"
  background_box_padding : ℤ := 20
  deriving Repr, DecidableEq

/-- `ImageGuideItem` (src/scripts/prompt_converter.py, lines 32-49).  The
`__post_init__` replacement of `None` by `{}` / `TextOverlayConfig()` is
folded into the defaults; the style guide dict is an insertion-ordered
association list (CPython dict semantics). -/
structure ImageGuideItem where
  index : ℤ
  role : String
  mode : String
  korean_description : String := ""
  prompt : String := ""
  style_guide : List (String × String) := []
  filename : String := ""
  text_overlay : PCOverlayConfig := {}
  deriving Repr, DecidableEq

/-- `GeminiPrompt` (src/scripts/prompt_converter.py, lines 52-59). -/
structure GeminiPrompt where
  prompt : String
  filename : String
  aspect_ratio : String := "16:9"
  style_hints : String := ""
  deriving Repr, DecidableEq

/-- CPython `d[k] = v` on an insertion-ordered dict: an existing key keeps
its position and gets the new value; a new key is appended. -/
def dictInsert (d : List (String × String)) (k v : String) : List (String × String) :=
  if d.any (fun kv => kv.1 = k) then d.map (fun kv => if kv.1 = k then (k, v) else kv)
  else d ++ [(k, v)]

/-- `str.lower()` (ASCII case, all that these inputs use). -/
def pyLower (s : String) : String := ⟨s.data.map Char.toLower⟩

/-- `_get_style_value(style_guide, *keys)` (src/scripts/prompt_converter.py,
lines 601-611): for each key in order, exact dict lookup first, then a
case-insensitive scan over the items. -/
def get_style_value (style_guide : List (String × String)) : List String → Option String
  | [] => none
  | key :: rest =>
    if style_guide = [] then none
    else
      match style_guide.find? (fun kv => kv.1 = key) with
      | some kv => some kv.2
      | none =>
        match style_guide.find? (fun kv => pyLower kv.1 = pyLower key) with
        | some kv => some kv.2
        | none => get_style_value style_guide rest

/-- Length of the leading run of `c` in `l`, and the rest. -/
def takeRun (c : Char) : List Char → Nat × List Char
  | [] => (0, [])
  | d :: ds =>
    if d = c then
      let (n, r) := takeRun c ds
      (n + 1, r)
    else (0, d :: ds)

/-- Worker for `re.split(r"━{20,}", content)`: cut at every maximal run of
at least twenty `━` characters (leftmost, greedy — exactly the matches the
regex engine would produce for this pattern). -/
def splitHeavyAux : Nat → List Char → List Char → List (List Char)
  | _, acc, [] => [acc.reverse]
  | 0, acc, rest => [acc.reverse ++ rest]
  | fuel + 1, acc, c :: cs =>
    if c = '━' then
      let (n, r) := takeRun '━' (c :: cs)
      if 20 ≤ n then acc.reverse :: splitHeavyAux fuel [] r
      else splitHeavyAux fuel (c :: acc) cs
    else splitHeavyAux fuel (c :: acc) cs

/-- `re.split(r"━{20,}", content)` (src/scripts/prompt_converter.py,
line 357). -/
def splitHeavy (content : List Char) : List (List Char) :=
  splitHeavyAux (content.length + 1) [] content

/-- `\[(?:이미지|Image)\s*(\d+)\]\s*(.+)` with `re.IGNORECASE`
(src/scripts/prompt_converter.py, line 490). -/
def legacyHeader1RE : RE := reSeqL
  [ reStr ("["), reAltL [reIStr ("이미지"), reIStr ("Image")], .star wsC
  , .grp 1 (.plus digitC), reStr ("]"), .star wsC, .grp 2 (.plus anyNoNlC) ]

/-- `\[(\w+)\]\s*(.+)` (src/scripts/prompt_converter.py, line 493). -/
def legacyHeader2RE : RE := reSeqL
  [ reStr ("["), .grp 1 (.plus wordC), reStr ("]"), .star wsC, .grp 2 (.plus anyNoNlC) ]

/-- `\[(?:한글\s*설명|Korean\s*Description)\]\s*\n(.+?)(?=\n\[|$)` with
`re.DOTALL | re.IGNORECASE` (line 521). -/
def legacyDescRE : RE := reSeqL
  [ reStr ("[")
  , reAltL [ reSeqL [reIStr ("한글"), .star wsC, reIStr ("설명")]
           , reSeqL [reIStr ("Korean"), .star wsC, reIStr ("Description")] ]
  , reStr ("]"), .star wsC, reStr ("\n")
  , .grp 1 (.lazyPlus anyC)
  , .look (reAltL [reStr ("\n["), RE.eolS]) ]

/-- `\[(?:AI\s*생성\s*프롬프트|AI\s*Generation\s*Prompt)\]\s*\n(.+?)(?=\n\[|$)`
with `re.DOTALL | re.IGNORECASE` (line 527). -/
def legacyPromptRE : RE := reSeqL
  [ reStr ("[")
  , reAltL [ reSeqL [reIStr ("AI"), .star wsC, reIStr ("생성"), .star wsC, reIStr ("프롬프트")]
           , reSeqL [reIStr ("AI"), .star wsC, reIStr ("Generation"), .star wsC, reIStr ("Prompt")] ]
  , reStr ("]"), .star wsC, reStr ("\n")
  , .grp 1 (.lazyPlus anyC)
  , .look (reAltL [reStr ("\n["), RE.eolS]) ]

/-- `\[스타일 가이드\]\s*\n(.+?)(?=━|$)` with `re.DOTALL` (line 533). -/
def legacyStyleRE : RE := reSeqL
  [ reStr ("[스타일 가이드]"), .star wsC, reStr ("\n")
  , .grp 1 (.lazyPlus anyC)
  , .look (reAltL [reStr ("━"), RE.eolS]) ]

/-- The legacy style-guide line loop (lines 535-542): any line with a
colon contributes `key.strip().lstrip("-").strip() : value.strip()` when
both are nonempty. -/
def styleLinesLegacy (text : List Char) : List (String × String) :=
  (splitCharL '\n' text).foldl (fun d line =>
    match splitFirstL ':' line with
    | none => d
    | some (k0, v0) =>
      let key := pyStripL (pyLStripCharL '-' (pyStripL k0))
      let value := pyStripL v0
      if key ≠ [] ∧ value ≠ [] then dictInsert d ⟨key⟩ ⟨value⟩ else d) []

/-- The mode detection of `_parse_image_block` (lines 502-509):
emoji/keyword markers choose the mode (the `elif` arm re-assigning the
default `"B"` is a no-op and folded away). -/
def legacyModeOf (block : List Char) : String :=
  if containsSubL block ("📷").data ∨ containsSubL block ("참고 이미지").data ∨
      containsSubL block ("다운로드된 이미지").data then "A"
  else if containsSubL block ("🔷").data ∨ containsSubL block ("SVG 생성").data then "C"
  else "B"

/-- Non-AI modes return early with empty description/prompt/style. -/
def parseBlockBody (block : List Char) (index : ℤ) (role : String) : Option ImageGuideItem :=
  if legacyModeOf block ≠ "B" then some { index := index, role := role, mode := legacyModeOf block }
  else
    let korean_desc : String :=
      match reSearchL legacyDescRE block with
      | some (_, _, cp) => pyStrip ⟨capStrL block cp 1⟩
      | none => ""
    let prompt : String :=
      match reSearchL legacyPromptRE block with
      | some (_, _, cp) => pyStrip ⟨capStrL block cp 1⟩
      | none => ""
    let style_guide : List (String × String) :=
      match reSearchL legacyStyleRE block with
      | some (_, _, cp) => styleLinesLegacy (capStrL block cp 1)
      | none => []
    some { index := index, role := role, mode := "B", korean_description := korean_desc
         , prompt := prompt, style_guide := style_guide }

/-- First line of the stripped block (`block.strip().split("\n")[0]`;
CPython `split` never returns an empty list, so index 0 always exists). -/
def firstLineOf (block : List Char) : List Char :=
  (splitCharL '\n' (pyStripL block)).headD []

/-- `_parse_image_block(block)` (src/scripts/prompt_converter.py, lines
482-551): the first line must match the `[이미지 N]`/`[Image N]` header, or
failing that the bare `[label] rest` form, which hard-codes index 0;
otherwise the whole block is dropped. -/
def parse_image_block (block : List Char) : Option ImageGuideItem :=
  match reMatchL legacyHeader1RE (firstLineOf block) with
  | some (_, cp) =>
    parseBlockBody block (natOfDigitsL (capStrL (firstLineOf block) cp 1) : ℤ)
      ⟨capStrL (firstLineOf block) cp 2⟩
  | none =>
    match reMatchL legacyHeader2RE (firstLineOf block) with
    | none => none
    | some (_, cp) =>
      parseBlockBody block 0
        (⟨capStrL (firstLineOf block) cp 1⟩ ++ " " ++ ⟨capStrL (firstLineOf block) cp 2⟩)

/-- The block loop of `_parse_image_guide_legacy_blocks` (lines 358-363):
blank blocks are skipped, parsed items are appended in block order. -/
def legacyBlocksLoop : List (List Char) → List ImageGuideItem
  | [] => []
  | b :: bs =>
    if pyStripL b = [] then legacyBlocksLoop bs
    else
      match parse_image_block b with
      | some item => item :: legacyBlocksLoop bs
      | none => legacyBlocksLoop bs

/-- `_parse_image_guide_legacy_blocks(content)` (src/scripts/
prompt_converter.py, lines 354-364). -/
def parse_image_guide_legacy_blocks (content : List Char) : List ImageGuideItem :=
  legacyBlocksLoop (splitHeavy content)

/-! ### prompt_converter.py: the heading dialect (lines 335-479) -/

/-- `^##\s*\[Image\s*\d+\]` with `re.MULTILINE | re.IGNORECASE`
(dialect dispatch, line 347). -/
def headingDispatchRE : RE := reSeqL
  [ RE.bol, reIStr ("##"), .star wsC, reStr ("["), reIStr ("Image"), .star wsC
  , .plus digitC, reStr ("]") ]

/-- `^##\s*\[Image\s*(\d+)\]\s*(.+?)\s*$` with
`re.MULTILINE | re.IGNORECASE` (heading iterator, lines 370-373). -/
def headingRE : RE := reSeqL
  [ RE.bol, reIStr ("##"), .star wsC, reStr ("["), reIStr ("Image"), .star wsC
  , .grp 1 (.plus digitC), reStr ("]"), .star wsC
  , .grp 2 (.lazyPlus anyNoNlC), .star wsC, RE.eolM ]

/-- `AI\s+Generation` with `re.IGNORECASE` (line 394). -/
def aiGenRE : RE := reSeqL [reIStr ("AI"), .plus wsC, reIStr ("Generation")]

/-- `SVG\s+Generation` with `re.IGNORECASE` (line 395). -/
def svgGenRE : RE := reSeqL [reIStr ("SVG"), .plus wsC, reIStr ("Generation")]

/-- `Reference\s+Image` with `re.IGNORECASE` (line 396). -/
def refImgRE : RE := reSeqL [reIStr ("Reference"), .plus wsC, reIStr ("Image")]

/-- `\*\*Korean\s+Description:\*\*\s*\n(.*?)(?=\n\*\*|\n###|\n##|\Z)` with
`re.DOTALL | re.IGNORECASE` (lines 405-409). -/
def headingDescRE : RE := reSeqL
  [ reStr ("**"), reIStr ("Korean"), .plus wsC, reIStr ("Description:"), reStr ("**")
  , .star wsC, reStr ("\n"), .grp 1 (.lazyStar anyC)
  , .look (reAltL [reStr ("\n**"), reStr ("\n###"), reStr ("\n##"), RE.eosAbs]) ]

/-- ``AI\s+Generation\s+Prompt.*?\n\s*```(?:\w+)?\s*\n(.*?)\n\s*``` `` with
`re.DOTALL | re.IGNORECASE` (lines 414-418). -/
def headingPromptRE : RE := reSeqL
  [ reIStr ("AI"), .plus wsC, reIStr ("Generation"), .plus wsC, reIStr ("Prompt")
  , .lazyStar anyC, reStr ("\n"), .star wsC, reStr ("```"), .opt (.plus wordC)
  , .star wsC, reStr ("\n"), .grp 1 (.lazyStar anyC), reStr ("\n"), .star wsC
  , reStr ("```") ]

/-- `\*\*(?:Style\s+Guide|Style):\*\*\s*\n(.*?)(?=\n###|\n##|\Z)` with
`re.DOTALL | re.IGNORECASE` (lines 424-428). -/
def headingStyleRE : RE := reSeqL
  [ reStr ("**")
  , reAltL [ reSeqL [reIStr ("Style"), .plus wsC, reIStr ("Guide")], reIStr ("Style") ]
  , reStr (":**"), .star wsC, reStr ("\n"), .grp 1 (.lazyStar anyC)
  , .look (reAltL [reStr ("\n###"), reStr ("\n##"), RE.eosAbs]) ]

/-- Overlay directive regexes (lines 446-469), all `re.IGNORECASE`:
`key[:\s]*["'](.+?)["']` for the quoted values, `font_size[:\s]*(\d+)`,
`(true|false)` for the booleans. -/
def directiveQuotedRE (key : String) : RE := reSeqL
  [ reIStr key, .star colonWsC, .cls quoteC, .grp 1 (.lazyPlus anyNoNlC), .cls quoteC ]

/-- `font_size[:\s]*(\d+)` with `re.IGNORECASE` (line 455). -/
def directiveFontSizeRE : RE := reSeqL
  [ reIStr ("font_size"), .star colonWsC, .grp 1 (.plus digitC) ]

/-- `key[:\s]*(true|false)` with `re.IGNORECASE`. -/
def directiveBoolRE (key : String) : RE := reSeqL
  [ reIStr key, .star colonWsC, .grp 1 (reAltL [reIStr ("true"), reIStr ("false")]) ]

/-- The best-effort overlay directive extraction of
`_parse_image_heading_section` (lines 445-469): everything beyond
`main_text` is only looked for when `main_text` itself was found. -/
def parseOverlayDirectives (sec : List Char) : PCOverlayConfig :=
  match reSearchL (directiveQuotedRE ("main_text")) sec with
  | none => {}
  | some (_, _, cp) =>
    let o1 : PCOverlayConfig := { main_text := ⟨capStrL sec cp 1⟩ }
    let o2 := match reSearchL (directiveQuotedRE ("sub_text")) sec with
      | some (_, _, c) => { o1 with sub_text := ⟨capStrL sec c 1⟩ }
      | none => o1
    let o3 := match reSearchL (directiveQuotedRE ("position")) sec with
      | some (_, _, c) => { o2 with position := ⟨capStrL sec c 1⟩ }
      | none => o2
    let o4 := match reSearchL directiveFontSizeRE sec with
      | some (_, _, c) => { o3 with font_size := (natOfDigitsL (capStrL sec c 1) : ℤ) }
      | none => o3
    let o5 := match reSearchL (directiveQuotedRE ("font_color")) sec with
      | some (_, _, c) => { o4 with font_color := ⟨capStrL sec c 1⟩ }
      | none => o4
    let o6 := match reSearchL (directiveBoolRE ("shadow")) sec with
      | some (_, _, c) => { o5 with shadow := pyLower ⟨capStrL sec c 1⟩ = "true" }
      | none => o5
    let o7 := match reSearchL (directiveBoolRE ("background_box")) sec with
      | some (_, _, c) => { o6 with background_box := pyLower ⟨capStrL sec c 1⟩ = "true" }
      | none => o6
    match reSearchL (directiveQuotedRE ("background_box_color")) sec with
    | some (_, _, c) => { o7 with background_box_color := ⟨capStrL sec c 1⟩ }
    | none => o7

/-- The heading style-guide line loop (lines 429-442): only `- key: value`
bullets with nonempty key and value contribute. -/
def styleLinesHeading (text : List Char) : List (String × String) :=
  (splitCharL '\n' text).foldl (fun d line0 =>
    let line1 := pyStripL line0
    if ¬ startsWithL line1 ['-'] then d
    else
      match splitFirstL ':' (pyStripL (pyLStripCharL '-' line1)) with
      | none => d
      | some (k0, v0) =>
        let key := pyStripL k0
        let value := pyStripL v0
        if key ≠ [] ∧ value ≠ [] then dictInsert d ⟨key⟩ ⟨value⟩ else d) []

/-- `_parse_image_heading_section(index, role, section)`
(src/scripts/prompt_converter.py, lines 392-479).  It always returns an
item; the mode prefers AI, then SVG, then reference, defaulting to AI. -/
def parse_image_heading_section (index : ℤ) (role : String) (sec : List Char) :
    ImageGuideItem :=
  let has_ai := containsSubL sec ("🎨").data ∨ (reSearchL aiGenRE sec).isSome
  let has_svg := containsSubL sec ("🔷").data ∨ (reSearchL svgGenRE sec).isSome
  let has_ref := containsSubL sec ("📷").data ∨ (reSearchL refImgRE sec).isSome
  let mode : String := if has_ai then "B" else if has_svg then "C" else if has_ref then "A" else "B"
  let korean_desc : String :=
    match reSearchL headingDescRE sec with
    | some (_, _, cp) => pyStrip ⟨capStrL sec cp 1⟩
    | none => ""
  let prompt : String :=
    match reSearchL headingPromptRE sec with
    | some (_, _, cp) => pyStrip ⟨capStrL sec cp 1⟩
    | none => ""
  let style_guide : List (String × String) :=
    match reSearchL headingStyleRE sec with
    | some (_, _, cp) => styleLinesHeading (capStrL sec cp 1)
    | none => []
  { index := index, role := role, mode := mode, korean_description := korean_desc
  , prompt := prompt, style_guide := style_guide
  , text_overlay := parseOverlayDirectives sec }

/-- One step of the section slicing of `_parse_image_guide_heading_format`
(lines 378-387): each item's section runs from its heading's end to the
next heading's start (or the end of the document). -/
def headingSections (content : List Char) : List (Nat × Nat × Caps) → List ImageGuideItem
  | [] => []
  | [(_, e, cp)] =>
    [ parse_image_heading_section (natOfDigitsL (capStrL content cp 1) : ℤ)
        (pyStrip ⟨capStrL content cp 2⟩)
        ((content.toArray.extract e content.length).toList) ]
  | (_, e1, cp1) :: (s2, e2, cp2) :: rest =>
    parse_image_heading_section (natOfDigitsL (capStrL content cp1 1) : ℤ)
      (pyStrip ⟨capStrL content cp1 2⟩)
      ((content.toArray.extract e1 s2).toList) ::
      headingSections content ((s2, e2, cp2) :: rest)

/-- `_parse_image_guide_heading_format(content)` (src/scripts/
prompt_converter.py, lines 367-389). -/
def parse_image_guide_heading_format (content : List Char) : List ImageGuideItem :=
  headingSections content (reFindAllL headingRE content)

/-- `parse_image_guide_markdown(content)` (src/scripts/prompt_converter.py,
lines 335-351): the heading dialect wins whenever one `## [Image N]`
heading exists anywhere; otherwise the legacy dialect. -/
def parse_image_guide_markdown (content : List Char) : List ImageGuideItem :=
  if (reSearchL headingDispatchRE content).isSome then
    parse_image_guide_heading_format content
  else parse_image_guide_legacy_blocks content

/-! ### prompt_converter.py: prompt conversion and extraction
(lines 173-252, 554-646) -/

/-- `" ".join(parts)`-style joining. -/
def joinStr (sep : String) : List String → String
  | [] => ""
  | [x] => x
  | x :: xs => x ++ sep ++ joinStr sep xs

/-- `\d+:\d+\s*ratio` (case-sensitive, line 217). -/
def ratioRE : RE := reSeqL
  [ .plus digitC, reStr (":"), .plus digitC, .star wsC, reStr ("ratio") ]

/-- `convert_to_gemini_prompt(image_guide, background_only)`
(src/scripts/prompt_converter.py, lines 173-252), over the `image_guide`
dict's three used entries.  Parts are joined with single spaces; empty or
missing contributions are omitted. -/
def convert_to_gemini_prompt (korean_description prompt : String)
    (style_guide : List (String × String)) (background_only : Bool) : String :=
  let parts1 : List String :=
    [ if background_only then
        "Create a high-quality background image for a Korean blog. No text, no letters, no typography, no words."
      else "Create a high-quality image for a Korean blog." ]
  let parts2 : List String :=
    if prompt ≠ "" then
      let cleaned := reSub ratioRE ("") prompt
      let cleaned := if background_only then strip_text_instructions cleaned else cleaned
      [pyStrip cleaned]
    else []
  let style_parts : List String :=
    (match get_style_value style_guide [("색상"), ("Color"), ("Colors")] with
     | some color => if color ≠ "" then ["Color scheme: " ++ translate_color color] else []
     | none => []) ++
    (match get_style_value style_guide [("분위기"), ("Mood")] with
     | some mood => if mood ≠ "" then ["Mood: " ++ translate_mood mood] else []
     | none => []) ++
    (match get_style_value style_guide [("형식"), ("Format"), ("Style")] with
     | some ft => if ft ≠ "" then ["Style: " ++ translate_format ft] else []
     | none => [])
  let parts3 : List String :=
    if style_parts ≠ [] then [joinStr (" ") style_parts] else []
  let parts4 : List String :=
    [ if background_only then
        "High resolution, professional quality, clean background without any text or typography, suitable for text overlay later."
      else "High resolution, professional quality, suitable for blog use." ]
  joinStr (" ") (parts1 ++ parts2 ++ parts3 ++ parts4)

/-- The filename-hostile character class `[<>:"/\\|?*]` of
`sanitize_filename`. -/
def sanSpecialC (c : Char) : Bool :=
  c = '<' ∨ c = '>' ∨ c = ':' ∨ c = '"' ∨ c = '/' ∨ c = '\\' ∨ c = '|' ∨ c = '?' ∨ c = '*'

/-- `sanitize_filename(name)` (src/scripts/prompt_converter.py,
lines 614-623): drop special characters, underscore whitespace runs,
truncate to 50 characters. -/
def sanitize_filename (name : String) : String :=
  let n1 := reSubL (RE.cls sanSpecialC) [] name.data
  let n2 := reSubL (RE.plus wsC) ['_'] n1
  ⟨if 50 < n2.length then n2.take 50 else n2⟩

/-- CPython `f"{index:02d}"`: zero-pad to width two (a minus sign counts
toward the width). -/
def formatIndex2 (i : ℤ) : String :=
  if 0 ≤ i ∧ i < 10 then "0" ++ toString i else toString i

/-- The `GeminiPrompt` built for one AI-generation item by
`extract_gemini_prompts` (lines 578-596): optimized prompt, zero-padded
positional filename, ratio from the style guide (Korean or English key,
`16:9` when absent or falsy), and comma-joined style values. -/
def mkGeminiPrompt (item : ImageGuideItem) : GeminiPrompt :=
  { prompt := convert_to_gemini_prompt item.korean_description item.prompt
      item.style_guide false
  , filename := formatIndex2 item.index ++ "_" ++ sanitize_filename item.role ++ ".png"
  , aspect_ratio :=
      match get_style_value item.style_guide [("비율"), ("Ratio")] with
      | some r => if r ≠ "" then r else "16:9"
      | none => "16:9"
  , style_hints :=
      if item.style_guide ≠ [] then joinStr (", ") (item.style_guide.map Prod.snd)
      else "" }

/-- The item loop of `extract_gemini_prompts` (lines 571-596): reference
and SVG items and AI items with an empty prompt are skipped silently. -/
def extractLoop : List ImageGuideItem → List GeminiPrompt
  | [] => []
  | item :: rest =>
    if item.mode ≠ "B" then extractLoop rest
    else if item.prompt = "" then extractLoop rest
    else mkGeminiPrompt item :: extractLoop rest

/-- `extract_gemini_prompts(image_guide_content, output_dir)`
(src/scripts/prompt_converter.py, lines 554-598).  The `output_dir`
parameter is unused by the source body and therefore not modelled. -/
def extract_gemini_prompts (content : String) : List GeminiPrompt :=
  extractLoop (parse_image_guide_markdown content.data)

/-- A legacy-dialect document whose indices appear out of order and whose
last block carries a bare `[label]` header. -/
def legacyDocW : String :=
  "[이미지 2] 역할A\n[한글 설명]\n설명글\n━━━━━━━━━━━━━━━━━━━━━━━━━\n[이미지 1] 역할B\n━━━━━━━━━━━━━━━━━━━━━━━━━\n[썸네일] 메인 썸네일\n━━━━━━━━━━━━━━━━━━━━━━━━━\nno header here\n"

/-- When a pattern has no match anywhere in `l`, `re.sub` is the identity. -/
theorem reSubL_of_no_match (re : RE) (repl l) (h : reSearchL re l = none) :
    reSubL re repl l = l := by
  unfold reSubL
  unfold reSearchL at h
  unfold reSubAux
  simp only [Nat.add_sub_cancel_left] at *
  rw [show l.toArray.size + 1 - 0 = l.toArray.size + 1 by omega] at *
  rw [h]
  simp

/-- Folding identity substitutions over a pattern list is the identity. -/
theorem foldl_reSubL_of_no_match (ps : List RE) (x : List Char)
    (h : ∀ p ∈ ps, reSearchL p x = none) :
    ps.foldl (fun acc p => reSubL p [] acc) x = x := by
  induction ps with
  | nil => rfl
  | cons p ps ih =>
    simp only [List.foldl_cons]
    rw [reSubL_of_no_match p [] x (h p (by simp))]
    exact ih (fun q hq => h q (by simp [hq]))

end NaverBlog

open NaverBlog

set_option maxRecDepth 100000 in
/-- C1 counterexample: `strip_text_instructions` is NOT idempotent.  On the
prompt `text over"z"textlay"q"`, one application removes the quoted span
`"z"` together with the following `text` (pattern 4), which joins the
fragments into `text overlay"q"`; the second application removes that
entirely (pattern 1), so `strip(strip(P)) = "" ≠ strip(P)`. -/
theorem c1_counterexample :
    strip_text_instructions (strip_text_instructions ("text over\"z\"textlay\"q\"")) ≠
      strip_text_instructions ("text over\"z\"textlay\"q\"") := by
  decide

/-- C1 (amended): `strip_text_instructions` is idempotent on every prompt
`P` whose once-stripped form is a true fixed point of the removal phase —
i.e. none of the 14 removal patterns matches anywhere in `strip(P)` — and
of the clean-up phase.  (The unrestricted claim fails: stripping can splice
remaining fragments into a fresh pattern occurrence, see the
counterexample.) -/
theorem c1_idempotent_of_fixed (P : String)
    (hpat : textPatterns.all
      (fun p => (reSearchL p (strip_text_instructions P).data).isNone) = true)
    (hclean : stiCleanupL (strip_text_instructions P).data = (strip_text_instructions P).data) :
    strip_text_instructions (strip_text_instructions P) = strip_text_instructions P := by
  have h' : ∀ p ∈ textPatterns, reSearchL p (strip_text_instructions P).data = none := by
    simpa [List.all_eq_true, Option.isNone_iff_eq_none] using hpat
  conv_lhs => rw [strip_text_instructions, stripTextInstructionsL]
  rw [foldl_reSubL_of_no_match _ _ h', hclean]

set_option maxRecDepth 100000 in
/-- C1 witness: the idempotence hypotheses hold, and the theorem applies,
at the docstring example prompt. -/
theorem c1_witness :
    strip_text_instructions
        (strip_text_instructions ("Blog thumbnail with \"Hello World\" text overlay")) =
      strip_text_instructions ("Blog thumbnail with \"Hello World\" text overlay") :=
  c1_idempotent_of_fixed ("Blog thumbnail with \"Hello World\" text overlay")
    (by decide) (by decide)

/-- C4 counterexample: `success_rate` is not `successCount / total` — at a
batch with 2 items and 1 success it returns `50`, not `1/2`; the
implementation multiplies the fraction by 100. -/
theorem c4_counterexample :
    BatchResult.success_rate brHalf ≠ (brHalf.success_count : ℚ) / (brHalf.total : ℚ) := by
  norm_num [BatchResult.success_rate, brHalf]

/-- C4 (amended): for every `BatchResult`, `success_rate` equals 100 times
the success fraction `successCount / total` (i.e. it is a percentage), and
is 0 when `total` is 0. -/
theorem c4_success_rate_is_percentage (b : BatchResult) :
    b.success_rate = 100 * claimedSuccessRate b := by
  unfold BatchResult.success_rate claimedSuccessRate
  split
  · ring
  · ring

/-- C5 counterexample: the spacing is not `max(6, round(fontSize × 0.18))`:
at the default font size 48 the code computes `int(8.64) = 8`, while the
claimed formula gives `round(8.64) = 9`. -/
theorem c5_counterexample :
    lineSpacingOf 48 ≠ max 6 (round ((48 : ℚ) * 0.18)) := by
  norm_num [lineSpacingOf, pyTrunc, round_eq]

/-- Drawing-loop gap lemma: between any two consecutively drawn lines the
vertical distance is that line's height plus the spacing constant. -/
theorem consecutiveGaps_lineYs (s : ℤ) (heights : List ℤ) :
    ∀ top : ℚ, consecutiveGaps (lineYs top s heights) =
      heights.dropLast.map (fun lh => (lh : ℚ) + (s : ℚ)) := by
  induction heights with
  | nil => intro top; rfl
  | cons h1 hs ih =>
    intro top
    cases hs with
    | nil => rfl
    | cons h2 hs2 =>
      show (top + (h1 : ℚ) + (s : ℚ) - top) ::
          consecutiveGaps (lineYs (top + (h1 : ℚ) + (s : ℚ)) s (h2 :: hs2)) = _
      rw [ih]
      simp only [List.dropLast_cons_of_ne_nil (by simp : h2 :: hs2 ≠ []), List.map_cons]
      congr 1
      ring

/-- C5 (amended): for every nonnegative font size `f`, the vertical spacing
inserted between consecutive wrapped lines is `max(6, ⌊f × 0.18⌋)`
(CPython `int()` truncates, it does not round), i.e. `max 6 (18 * f / 100)`
in integer arithmetic — and in the drawing loop the distance between two
consecutively drawn lines is exactly the earlier line's height plus that
spacing. -/
theorem c5_spacing_truncates (fs : ℤ) (h : 0 ≤ fs) :
    lineSpacingOf fs = max 6 (18 * fs / 100) ∧
      ∀ (top : ℚ) (heights : List ℤ),
        consecutiveGaps (lineYs top (lineSpacingOf fs) heights) =
          heights.dropLast.map (fun lh => (lh : ℚ) + (lineSpacingOf fs : ℚ)) := by
  constructor
  · unfold lineSpacingOf pyTrunc
    have hq : ¬((fs : ℚ) * 0.18 < 0) := by
      push_neg
      positivity
    rw [if_neg hq]
    have : (fs : ℚ) * 0.18 = ((18 * fs : ℤ) : ℚ) / ((100 : ℕ) : ℚ) := by
      push_cast
      ring
    rw [this, Rat.floor_intCast_div_natCast]
    norm_num
  · intro top heights
    exact consecutiveGaps_lineYs (lineSpacingOf fs) heights top

/-- C5 witness: the amended theorem applies at the default font size 48:
the spacing is 8, and two lines of heights 40 and 40 drawn from the top of
a block are 48 units apart. -/
theorem c5_witness :
    lineSpacingOf 48 = 8 ∧
      consecutiveGaps (lineYs 0 (lineSpacingOf 48) [40, 40]) = [48] := by
  have h := c5_spacing_truncates 48 (by norm_num)
  constructor
  · rw [h.1]
    rfl
  · rw [h.2 0 [40, 40], h.1]
    norm_num

/-- Dropping-while over a list none of whose elements satisfies `p` is the
identity. -/
theorem dropWhile_eq_self_of_forall (p : Char → Bool) (l : List Char)
    (h : ∀ c ∈ l, p c = false) : l.dropWhile p = l := by
  cases l with
  | nil => rfl
  | cons c cs => simp [List.dropWhile_cons, h c (by simp)]

/-- `str.strip()` is the identity on a list with no whitespace characters. -/
theorem pyStripL_id (l : List Char) (h : ∀ c ∈ l, isPySpace c = false) :
    pyStripL l = l := by
  unfold pyStripL
  rw [dropWhile_eq_self_of_forall _ _ h,
    dropWhile_eq_self_of_forall _ _ (fun c hc => h c (by simpa using hc)),
    List.reverse_reverse]

/-- A hexadecimal digit is one of the three ASCII ranges. -/
theorem hexVal_ranges {c : Char} {v : Nat} (h : hexVal c = some v) :
    (48 ≤ c.toNat ∧ c.toNat ≤ 57) ∨ (97 ≤ c.toNat ∧ c.toNat ≤ 102) ∨
      (65 ≤ c.toNat ∧ c.toNat ≤ 70) := by
  unfold hexVal at h
  split at h
  · exact Or.inl (by assumption)
  · split at h
    · exact Or.inr (Or.inl (by assumption))
    · split at h
      · exact Or.inr (Or.inr (by assumption))
      · exact Option.noConfusion h

/-- A hexadecimal digit is not whitespace. -/
theorem hexVal_not_space {c : Char} {v : Nat} (h : hexVal c = some v) :
    isPySpace c = false := by
  have hn := hexVal_ranges h
  cases hsp : isPySpace c with
  | false => rfl
  | true =>
    exfalso
    simp only [isPySpace, decide_eq_true_eq] at hsp
    have : c.toNat = 32 ∨ c.toNat = 9 ∨ c.toNat = 10 ∨ c.toNat = 13 ∨
        c.toNat = 11 ∨ c.toNat = 12 := by
      rcases hsp with rfl | rfl | rfl | rfl | rfl | rfl <;> decide
    omega

/-- A hexadecimal digit differs from any character that is not one. -/
theorem hexVal_ne {c : Char} {v : Nat} (h : hexVal c = some v) (d : Char)
    (hd : hexVal d = none) : c ≠ d := by
  intro e
  subst e
  rw [hd] at h
  exact Option.noConfusion h

/-- `int(s, 16)` on a two-hex-digit string is its place-value reading. -/
theorem pyIntHexL_pair (c1 c2 : Char) (v1 v2 : Nat)
    (h1 : hexVal c1 = some v1) (h2 : hexVal c2 = some v2) :
    pyIntHexL [c1, c2] = some ((v1 * 16 + v2 : ℕ) : ℤ) := by
  have s1 := hexVal_not_space h1
  have s2 := hexVal_not_space h2
  have hm : c1 ≠ '-' := hexVal_ne h1 '-' (by decide)
  have hp : c1 ≠ '+' := hexVal_ne h1 '+' (by decide)
  have hx : c2 ≠ 'x' := hexVal_ne h2 'x' (by decide)
  have hX : c2 ≠ 'X' := hexVal_ne h2 'X' (by decide)
  have hu : c2 ≠ '_' := hexVal_ne h2 '_' (by decide)
  unfold pyIntHexL
  rw [pyStripL_id _ (by
    intro c hc
    simp only [List.mem_cons, List.not_mem_nil, or_false] at hc
    rcases hc with rfl | rfl <;> assumption)]
  simp only [pyIntHexCore, if_neg hm, if_neg hp, pyIntHexBody,
    if_neg (show ¬(c1 = '0' ∧ (c2 = 'x' ∨ c2 = 'X')) from fun hand => hand.2.elim hx hX),
    hexFirst, h1, hexCoreAux, if_neg hu, h2]
  simp

/-- C2 (amended): `_parse_color` returns the input digits exactly on the
hex forms `#RGB` (digits doubled, alpha 255), `#RRGGBB` (alpha 255) and
`#RRGGBBAA`, and returns opaque white on every string that — after
stripping — does not start with `#` and matches neither the `rgba(...)`
nor the `rgb(...)` form.  (The original claim fails for `#`-strings whose
3/6/8-character payload is not valid hex: there `int(_, 16)` raises
`ValueError` instead of returning white, see the counterexample.) -/
theorem c2_color_forms :
    (∀ a b c va vb vc, hexVal a = some va → hexVal b = some vb → hexVal c = some vc →
      parse_color ⟨['#', a, b, c]⟩ =
        .ok (((va * 16 + va : ℕ) : ℤ), ((vb * 16 + vb : ℕ) : ℤ), ((vc * 16 + vc : ℕ) : ℤ), 255))
  ∧ (∀ a1 a2 b1 b2 c1 c2 va1 va2 vb1 vb2 vc1 vc2,
      hexVal a1 = some va1 → hexVal a2 = some va2 → hexVal b1 = some vb1 →
      hexVal b2 = some vb2 → hexVal c1 = some vc1 → hexVal c2 = some vc2 →
      parse_color ⟨['#', a1, a2, b1, b2, c1, c2]⟩ =
        .ok (((va1 * 16 + va2 : ℕ) : ℤ), ((vb1 * 16 + vb2 : ℕ) : ℤ),
          ((vc1 * 16 + vc2 : ℕ) : ℤ), 255))
  ∧ (∀ a1 a2 b1 b2 c1 c2 d1 d2 va1 va2 vb1 vb2 vc1 vc2 vd1 vd2,
      hexVal a1 = some va1 → hexVal a2 = some va2 → hexVal b1 = some vb1 →
      hexVal b2 = some vb2 → hexVal c1 = some vc1 → hexVal c2 = some vc2 →
      hexVal d1 = some vd1 → hexVal d2 = some vd2 →
      parse_color ⟨['#', a1, a2, b1, b2, c1, c2, d1, d2]⟩ =
        .ok (((va1 * 16 + va2 : ℕ) : ℤ), ((vb1 * 16 + vb2 : ℕ) : ℤ),
          ((vc1 * 16 + vc2 : ℕ) : ℤ), ((vd1 * 16 + vd2 : ℕ) : ℤ)))
  ∧ (∀ s : String, s.data ≠ [] →
      startsWithL (pyStripL s.data) ['#'] = false →
      reMatchL rgbaRE (pyStripL s.data) = none →
      reMatchL rgbRE (pyStripL s.data) = none →
      parse_color s = .ok colorWhite) := by
  refine ⟨?_, ?_, ?_, ?_⟩
  · intro a b c va vb vc ha hb hc
    have sp : ∀ x ∈ ['#', a, b, c], isPySpace x = false := by
      intro x hx
      simp only [List.mem_cons, List.not_mem_nil, or_false] at hx
      rcases hx with rfl | rfl | rfl | rfl
      · decide
      · exact hexVal_not_space ha
      · exact hexVal_not_space hb
      · exact hexVal_not_space hc
    unfold parse_color
    rw [if_neg (by simp), pyStripL_id _ sp]
    rw [if_pos (by simp [startsWithL])]
    unfold hexBranch
    simp only [List.drop_succ_cons, List.drop_zero]
    rw [pyIntHexL_pair a a va va ha ha, pyIntHexL_pair b b vb vb hb hb,
      pyIntHexL_pair c c vc vc hc hc]
  · intro a1 a2 b1 b2 c1 c2 va1 va2 vb1 vb2 vc1 vc2 ha1 ha2 hb1 hb2 hc1 hc2
    have sp : ∀ x ∈ ['#', a1, a2, b1, b2, c1, c2], isPySpace x = false := by
      intro x hx
      simp only [List.mem_cons, List.not_mem_nil, or_false] at hx
      rcases hx with rfl | rfl | rfl | rfl | rfl | rfl | rfl
      · decide
      · exact hexVal_not_space ha1
      · exact hexVal_not_space ha2
      · exact hexVal_not_space hb1
      · exact hexVal_not_space hb2
      · exact hexVal_not_space hc1
      · exact hexVal_not_space hc2
    unfold parse_color
    rw [if_neg (by simp), pyStripL_id _ sp]
    rw [if_pos (by simp [startsWithL])]
    unfold hexBranch
    simp only [List.drop_succ_cons, List.drop_zero]
    rw [pyIntHexL_pair a1 a2 va1 va2 ha1 ha2, pyIntHexL_pair b1 b2 vb1 vb2 hb1 hb2,
      pyIntHexL_pair c1 c2 vc1 vc2 hc1 hc2]
  · intro a1 a2 b1 b2 c1 c2 d1 d2 va1 va2 vb1 vb2 vc1 vc2 vd1 vd2
      ha1 ha2 hb1 hb2 hc1 hc2 hd1 hd2
    have sp : ∀ x ∈ ['#', a1, a2, b1, b2, c1, c2, d1, d2], isPySpace x = false := by
      intro x hx
      simp only [List.mem_cons, List.not_mem_nil, or_false] at hx
      rcases hx with rfl | rfl | rfl | rfl | rfl | rfl | rfl | rfl | rfl
      · decide
      · exact hexVal_not_space ha1
      · exact hexVal_not_space ha2
      · exact hexVal_not_space hb1
      · exact hexVal_not_space hb2
      · exact hexVal_not_space hc1
      · exact hexVal_not_space hc2
      · exact hexVal_not_space hd1
      · exact hexVal_not_space hd2
    unfold parse_color
    rw [if_neg (by simp), pyStripL_id _ sp]
    rw [if_pos (by simp [startsWithL])]
    unfold hexBranch
    simp only [List.drop_succ_cons, List.drop_zero]
    rw [pyIntHexL_pair a1 a2 va1 va2 ha1 ha2, pyIntHexL_pair b1 b2 vb1 vb2 hb1 hb2,
      pyIntHexL_pair c1 c2 vc1 vc2 hc1 hc2, pyIntHexL_pair d1 d2 vd1 vd2 hd1 hd2]
  · intro s hne hhash hrgba hrgb
    unfold parse_color
    rw [if_neg hne, if_neg (by rw [hhash]; exact Bool.false_ne_true)]
    unfold colorFallback
    rw [hrgba, hrgb]

/-- C2 counterexample: `#GGG` matches none of the accepted colour forms,
yet `_parse_color` does not return opaque white — `int("GG", 16)` raises
`ValueError`, which escapes the function. -/
theorem c2_counterexample :
    parse_color ("#GGG") = .error PyErr.valueError ∧
      parse_color ("#GGG") ≠ .ok colorWhite := by
  constructor
  · decide
  · decide

/-- C2 witness: the amended theorem applied to `#1aF`, `#0A2b3C`,
`#0A2b3C80` and the unrecognized string `salmon`. -/
theorem c2_witness :
    parse_color ("#1aF") = .ok (17, 170, 255, 255) ∧
      parse_color ("#0A2b3C") = .ok (10, 43, 60, 255) ∧
      parse_color ("#0A2b3C80") = .ok (10, 43, 60, 128) ∧
      parse_color ("salmon") = .ok colorWhite := by
  refine ⟨?_, ?_, ?_, ?_⟩
  · have h := c2_color_forms.1 '1' 'a' 'F' 1 10 15 (by decide) (by decide) (by decide)
    exact h
  · have h := c2_color_forms.2.1 '0' 'A' '2' 'b' '3' 'C' 0 10 2 11 3 12
      (by decide) (by decide) (by decide) (by decide) (by decide) (by decide)
    exact h
  · have h := c2_color_forms.2.2.1 '0' 'A' '2' 'b' '3' 'C' '8' '0' 0 10 2 11 3 12 8 0
      (by decide) (by decide) (by decide) (by decide) (by decide) (by decide)
      (by decide) (by decide)
    exact h
  · exact c2_color_forms.2.2.2 ("salmon") (by decide) (by decide) (by decide) (by decide)

/-- `splitCharL` never returns the empty list of pieces. -/
theorem splitCharL_ne_nil (sep : Char) (l : List Char) : splitCharL sep l ≠ [] := by
  cases l with
  | nil => simp [splitCharL]
  | cons c cs =>
    unfold splitCharL
    split
    · simp
    · split <;> simp

/-- Every character of every piece of `splitCharL` comes from the input
and differs from the separator. -/
theorem splitCharL_mem (sep : Char) (l : List Char) :
    ∀ w ∈ splitCharL sep l, ∀ c ∈ w, c ∈ l ∧ c ≠ sep := by
  induction l with
  | nil =>
    intro w hw c hc
    simp [splitCharL] at hw
    subst hw
    simp at hc
  | cons d ds ih =>
    intro w hw c hc
    unfold splitCharL at hw
    by_cases hd : d = sep
    · rw [if_pos hd] at hw
      rcases List.mem_cons.mp hw with rfl | hw2
      · simp at hc
      · obtain ⟨hcl, hcs⟩ := ih w hw2 c hc
        exact ⟨List.mem_cons_of_mem _ hcl, hcs⟩
    · rw [if_neg hd] at hw
      rcases hsplit : splitCharL sep ds with _ | ⟨w0, ws0⟩
      · exact absurd hsplit (splitCharL_ne_nil sep ds)
      · rw [hsplit] at hw
        rcases List.mem_cons.mp hw with rfl | hw2
        · rcases List.mem_cons.mp hc with rfl | hc2
          · exact ⟨List.mem_cons_self _ _, hd⟩
          · obtain ⟨hcl, hcs⟩ := ih w0 (by rw [hsplit]; exact List.mem_cons_self _ _) c hc2
            exact ⟨List.mem_cons_of_mem _ hcl, hcs⟩
        · obtain ⟨hcl, hcs⟩ := ih w (by rw [hsplit]; exact List.mem_cons_of_mem _ hw2) c hc
          exact ⟨List.mem_cons_of_mem _ hcl, hcs⟩

/-- `str.strip()` is the identity when neither end is whitespace. -/
theorem pyStripL_eq_self (l : List Char)
    (h1 : ∀ c, l.head? = some c → isPySpace c = false)
    (h2 : ∀ c, l.getLast? = some c → isPySpace c = false) :
    pyStripL l = l := by
  unfold pyStripL
  have step1 : l.dropWhile isPySpace = l := by
    cases l with
    | nil => rfl
    | cons c cs => simp [List.dropWhile_cons, h1 c rfl]
  rw [step1]
  have step2 : l.reverse.dropWhile isPySpace = l.reverse := by
    cases hr : l.reverse with
    | nil => rfl
    | cons d ds =>
      have : l.getLast? = some d := by
        rw [← List.head?_reverse, hr]
        rfl
      simp [List.dropWhile_cons, h2 d this]
  rw [step2, List.reverse_reverse]

/-- Both ends of a line are non-whitespace (invariant of the wrap loop). -/
def endsOK (l : List Char) : Prop :=
  (∀ c, l.head? = some c → isPySpace c = false) ∧
    (∀ c, l.getLast? = some c → isPySpace c = false)

/-- A whitespace-free word has both ends non-whitespace. -/
theorem endsOK_of_no_space {w : List Char} (h : ∀ c ∈ w, isPySpace c = false) :
    endsOK w :=
  ⟨fun c hc => h c (List.mem_of_mem_head? hc),
   fun c hc => h c (List.mem_of_mem_getLast? hc)⟩

/-- Joining a nonempty tail inserts one separating space. -/
theorem joinSpacesL_cons_ne (a : List Char) (R : List (List Char)) (h : R ≠ []) :
    joinSpacesL (a :: R) = a ++ ' ' :: joinSpacesL R := by
  cases R with
  | nil => exact absurd rfl h
  | cons b bs => rfl

/-- A line that is itself a space-join splits off its first word. -/
theorem joinSpacesL_append_head (a b : List Char) (ws : List (List Char)) :
    joinSpacesL ((a ++ ' ' :: b) :: ws) = a ++ ' ' :: joinSpacesL (b :: ws) := by
  cases ws with
  | nil => rfl
  | cons w' ws' =>
    rw [joinSpacesL_cons_ne _ _ (by simp), joinSpacesL_cons_ne b _ (by simp),
      List.append_assoc]
    rfl

/-- The head of a left-append is the head of the left part when nonempty. -/
theorem head?_append_left {l l' : List Char} (h : l ≠ []) :
    (l ++ l').head? = l.head? := by
  cases l with
  | nil => exact absurd rfl h
  | cons c cs => rfl

/-- Main invariant of the space-wrap loop: joining its output with single
spaces re-joins the pending line and the remaining words, and the output
is nonempty whenever the pending line is. -/
theorem wrapLoopSpace_join (widthOf : List Char → ℤ) (maxWidth : ℤ) :
    ∀ (ws : List (List Char)) (cur : List Char),
      (∀ w ∈ ws, w ≠ [] ∧ ∀ c ∈ w, isPySpace c = false) → endsOK cur →
      (cur ≠ [] → wrapLoopSpace widthOf maxWidth ws cur ≠ []) ∧
        joinSpacesL (wrapLoopSpace widthOf maxWidth ws cur) =
          joinSpacesL (if cur = [] then ws else cur :: ws) := by
  intro ws
  induction ws with
  | nil =>
    intro cur _ _
    constructor
    · intro hc
      simp [wrapLoopSpace, hc]
    · by_cases hc : cur = []
      · simp [wrapLoopSpace, hc]
      · simp [wrapLoopSpace, hc]
  | cons w ws' ih =>
    intro cur hws hcur
    have hw : w ≠ [] ∧ ∀ c ∈ w, isPySpace c = false := hws w (List.mem_cons_self _ _)
    have hws' : ∀ v ∈ ws', v ≠ [] ∧ ∀ c ∈ v, isPySpace c = false :=
      fun v hv => hws v (List.mem_cons_of_mem _ hv)
    by_cases hc : cur = []
    · subst hc
      unfold wrapLoopSpace
      rw [if_pos rfl, if_pos rfl]
      have ihw := ih w hws' (endsOK_of_no_space hw.2)
      refine ⟨fun habs => absurd rfl habs, ?_⟩
      rw [ihw.2, if_neg hw.1]
    · have hcand : pyStripL (cur ++ ' ' :: w) = cur ++ ' ' :: w := by
        apply pyStripL_eq_self
        · intro c hhead
          rw [head?_append_left hc] at hhead
          exact hcur.1 c hhead
        · intro c hlast
          rw [List.getLast?_append_of_ne_nil _ (by simp), ← List.singleton_append,
            List.getLast?_append_of_ne_nil _ hw.1] at hlast
          exact hw.2 c (List.mem_of_mem_getLast? hlast)
      have hcandOK : endsOK (cur ++ ' ' :: w) := by
        constructor
        · intro c hhead
          rw [head?_append_left hc] at hhead
          exact hcur.1 c hhead
        · intro c hlast
          rw [List.getLast?_append_of_ne_nil _ (by simp), ← List.singleton_append,
            List.getLast?_append_of_ne_nil _ hw.1] at hlast
          exact hw.2 c (List.mem_of_mem_getLast? hlast)
      unfold wrapLoopSpace
      rw [if_neg hc, if_neg hc, hcand]
      by_cases hfits : widthOf (cur ++ ' ' :: w) ≤ maxWidth
      · rw [if_pos hfits]
        have ihc := ih (cur ++ ' ' :: w) hws' hcandOK
        refine ⟨fun _ => ihc.1 (by simp), ?_⟩
        rw [ihc.2, if_neg (by simp), joinSpacesL_append_head,
          joinSpacesL_cons_ne cur _ (by simp)]
      · rw [if_neg hfits]
        have ihw := ih w hws' (endsOK_of_no_space hw.2)
        have hR : wrapLoopSpace widthOf maxWidth ws' w ≠ [] := ihw.1 hw.1
        refine ⟨fun _ => by simp, ?_⟩
        rw [joinSpacesL_cons_ne _ _ hR, ihw.2, if_neg hw.1,
          joinSpacesL_cons_ne cur _ (by simp)]

/-- The wrap loop never emits an empty line (no hypotheses needed). -/
theorem wrapLoopSpace_no_empty (widthOf : List Char → ℤ) (maxWidth : ℤ) :
    ∀ (ws : List (List Char)) (cur : List Char),
      ∀ l ∈ wrapLoopSpace widthOf maxWidth ws cur, l ≠ [] := by
  intro ws
  induction ws with
  | nil =>
    intro cur l hl
    unfold wrapLoopSpace at hl
    by_cases hc : cur = []
    · simp [hc] at hl
    · simp [hc] at hl
      subst hl
      exact hc
  | cons w ws' ih =>
    intro cur l hl
    unfold wrapLoopSpace at hl
    split at hl
    · exact ih _ l hl
    · split at hl
      · exact ih _ l hl
      · rcases List.mem_cons.mp hl with rfl | hl2
        · rename_i hcurne _
          exact hcurne
        · exact ih _ l hl2

/-- C6 counterexample: the text `"x \t"` is a single-line text containing a
space, yet the wrapped lines re-join (with any positive budget, here 100,
and one width unit per character) to `"x"`, not to the space-normalized
original `"x \t"` — the `.strip()` inside the loop silently swallows the
tab word. -/
theorem c6_counterexample :
    (("x \t").data ≠ [] ∧ containsSubL (("x \t").data) ['\n'] = false ∧
      containsSubL (("x \t").data) [' '] = true ∧ (0 : ℤ) < 100) ∧
      joinSpacesL (wrap_text lenWidth 100 (("x \t").data)) ≠
        normalizeSpacesL (("x \t").data) := by
  decide

/-- C6 (amended): for every width function, every budget and every
nonempty single-line text that contains a space and whose whitespace
characters are all plain spaces, `_wrap_text` never produces an empty
line, and joining the produced lines with single spaces reproduces the
original text with runs of spaces collapsed and leading/trailing spaces
removed.  (Texts containing tabs or other non-space whitespace can lose
those characters to the in-loop `.strip()`, see the counterexample; the
no-empty-line half in fact needs no whitespace restriction.) -/
theorem c6_wrap_normalized (widthOf : List Char → ℤ) (maxWidth : ℤ) (text : List Char)
    (hne : text ≠ []) (hnl : containsSubL text ['\n'] = false)
    (hsp : containsSubL text [' '] = true) (hpos : 0 < maxWidth)
    (honly : ∀ c ∈ text, isPySpace c = true → c = ' ') :
    (∀ l ∈ wrap_text widthOf maxWidth text, l ≠ []) ∧
      joinSpacesL (wrap_text widthOf maxWidth text) = normalizeSpacesL text := by
  have hwrap : wrap_text widthOf maxWidth text =
      wrapLoopSpace widthOf maxWidth ((splitCharL ' ' text).filter (fun w => w ≠ [])) [] := by
    unfold wrap_text
    rw [if_neg hne, if_neg (by rw [hnl]; exact Bool.false_ne_true), if_pos hsp]
  have hwords : ∀ w ∈ (splitCharL ' ' text).filter (fun w => w ≠ []),
      w ≠ [] ∧ ∀ c ∈ w, isPySpace c = false := by
    intro w hw
    rw [List.mem_filter] at hw
    obtain ⟨hmem, hne'⟩ := hw
    refine ⟨by simpa using hne', ?_⟩
    intro c hc
    obtain ⟨hcl, hcs⟩ := splitCharL_mem ' ' text w hmem c hc
    cases hspace : isPySpace c with
    | false => rfl
    | true => exact absurd (honly c hcl hspace) hcs
  have hjoin := wrapLoopSpace_join widthOf maxWidth _ [] hwords
    ⟨fun c h => by simp at h, fun c h => by simp at h⟩
  rw [hwrap]
  refine ⟨wrapLoopSpace_no_empty widthOf maxWidth _ [], ?_⟩
  rw [hjoin.2, if_pos rfl]
  rfl

/-- C6 witness: the amended theorem applies to `"hello world foo"` with a
7-unit budget under the one-unit-per-character width function. -/
theorem c6_witness :
    (∀ l ∈ wrap_text lenWidth 7 (("hello world foo").data), l ≠ []) ∧
      joinSpacesL (wrap_text lenWidth 7 (("hello world foo").data)) =
        normalizeSpacesL (("hello world foo").data) :=
  c6_wrap_normalized lenWidth 7 (("hello world foo").data)
    (by decide) (by decide) (by decide) (by decide) (by decide)

/-- The early-return loop is the first-match substitution. -/
theorem translateFirst_eq_spec (m : List (String × String)) (s : String) :
    translateFirst m s = firstMatchSpec m s := by
  induction m with
  | nil => rfl
  | cons kv rest ih =>
    obtain ⟨k, v⟩ := kv
    unfold translateFirst firstMatchSpec
    by_cases h : pyContains s k = true
    · rw [if_pos h, List.find?_cons_of_pos _ (by simpa using h)]
    · rw [if_neg h, List.find?_cons_of_neg _ (by simpa using h)]
      exact ih

/-- The sequential loop is the fold of substitutions. -/
theorem translateAll_eq_spec (m : List (String × String)) (s : String) :
    translateAll m s = seqSubstSpec m s := by
  induction m generalizing s with
  | nil => rfl
  | cons kv rest ih =>
    obtain ⟨k, v⟩ := kv
    unfold translateAll seqSubstSpec
    rw [List.foldl_cons]
    exact ih _

/-- The early-return loop is the identity when no key occurs. -/
theorem translateFirst_id (m : List (String × String)) (s : String)
    (h : ∀ kv ∈ m, pyContains s kv.1 = false) : translateFirst m s = s := by
  induction m with
  | nil => rfl
  | cons kv rest ih =>
    unfold translateFirst
    rw [if_neg (by rw [h kv (List.mem_cons_self _ _)]; exact Bool.false_ne_true)]
    exact ih (fun kv2 h2 => h kv2 (List.mem_cons_of_mem _ h2))

/-- The sequential loop is the identity when no key occurs. -/
theorem translateAll_id (m : List (String × String)) (s : String)
    (h : ∀ kv ∈ m, pyContains s kv.1 = false) : translateAll m s = s := by
  induction m with
  | nil => rfl
  | cons kv rest ih =>
    unfold translateAll
    rw [if_neg (by rw [h kv (List.mem_cons_self _ _)]; exact Bool.false_ne_true)]
    exact ih (fun kv2 h2 => h kv2 (List.mem_cons_of_mem _ h2))

/-- C8: `translate_color` substitutes only the first colour key (in the
fixed mapping order) found as a substring and returns immediately — the
substitution rewrites every occurrence of that one key, preserving the
surrounding text — while `translate_mood` and `translate_format` apply a
substitution for every matching key sequentially on the evolving string;
any input containing no mapping key is returned unchanged by all three. -/
theorem c8_translate_asymmetry :
    (∀ s, translate_color s = firstMatchSpec color_map s) ∧
      (∀ s, translate_mood s = seqSubstSpec mood_map s) ∧
      (∀ s, translate_format s = seqSubstSpec format_map s) ∧
      (∀ s, (∀ kv ∈ color_map, pyContains s kv.1 = false) → translate_color s = s) ∧
      (∀ s, (∀ kv ∈ mood_map, pyContains s kv.1 = false) → translate_mood s = s) ∧
      (∀ s, (∀ kv ∈ format_map, pyContains s kv.1 = false) → translate_format s = s) :=
  ⟨fun s => translateFirst_eq_spec color_map s,
   fun s => translateAll_eq_spec mood_map s,
   fun s => translateAll_eq_spec format_map s,
   fun s h => translateFirst_id color_map s h,
   fun s h => translateAll_id mood_map s h,
   fun s h => translateAll_id format_map s h⟩

/-- C8 witness: concrete instances — a no-key English input is unchanged
by all three translators, and a colour input containing two keys gets only
the first mapping key substituted (both its occurrences), as the
first-match form states. -/
theorem c8_witness :
    translate_color ("hello") = "hello" ∧
      translate_mood ("hello") = "hello" ∧
      translate_format ("hello") = "hello" ∧
      translate_color ("따뜻한 노랑과 골드") = firstMatchSpec color_map ("따뜻한 노랑과 골드") ∧
      translate_color ("골드 골드") = "gold, champagne gold gold, champagne gold" := by
  refine ⟨c8_translate_asymmetry.2.2.2.1 ("hello") (by decide),
    c8_translate_asymmetry.2.2.2.2.1 ("hello") (by decide),
    c8_translate_asymmetry.2.2.2.2.2 ("hello") (by decide),
    c8_translate_asymmetry.1 ("따뜻한 노랑과 골드"), ?_⟩
  decide

/-- C3: the overlay failure contract is broken by the code.  With Pillow
available and a背景 image that opens fine, calling
`add_text_to_existing_image` with the documented argument type — a default
`prompt_converter.TextOverlayConfig` — raises `AttributeError` past the
function boundary (line 360 reads `text_config.main_text_y`, which that
dataclass does not define), instead of returning a result object. -/
theorem c3_add_text_raises :
    add_text_to_existing_image envOK ("bg.png") pcDefaultConfig (some ("out.png")) =
      .error PyErr.attributeError := by
  decide

/-- C10 counterexample: two configuration objects that do not define the
watermark attributes and on which `add_text_to_existing_image` appends no
watermark element at all.  For the default
`prompt_converter.TextOverlayConfig` the element-building phase dies with
`AttributeError` on `main_text_y`; for a config whose `main_text_y` is the
percent string `inf%`, `int(height * percent / 100)` at
src/scripts/text_overlay.py, line 303 raises an uncaught `OverflowError`
(only `ValueError` is caught there). -/
theorem c10_counterexample :
    buildTextElements pcDefaultConfig 1024 1024 = Except.error PyErr.attributeError ∧
      buildTextElements { pcDefaultConfig with main_text_y := some ("inf%") } 1024 1024 =
        Except.error PyErr.overflowError := by
  exact ⟨by decide, by decide⟩


/-- C10 (amended): for every configuration object that defines
`main_text_y` with a value whose Y-position parse returns normally (and
likewise `sub_text_y` whenever its `sub_text` is nonempty) but none of the
watermark attributes, the element-building phase of
`add_text_to_existing_image` succeeds and appends, as the LAST element, a
watermark `TextElement` with text `@money-lab-brian`, font size 18, no
shadow, horizontally centred, at `y = imageHeight − 60` — even when
`main_text` and `sub_text` are both empty, in which case it is the only
element, so such a default-shaped configuration always brands the output
image.  (The unrestricted claim fails twice over: a config without
`main_text_y` — e.g. the default `prompt_converter.TextOverlayConfig` —
raises `AttributeError` before any element is built, and a config whose
`main_text_y` is a percent value that parses to an infinity — `inf%`,
`1e400%` — raises an uncaught `OverflowError` from
`int(height * percent / 100)`; see the counterexample for both.) -/
theorem c10_default_watermark (cfg : DuckConfig) (width height : ℤ) (my : String)
    (my_y : ℤ) (hy : cfg.main_text_y = some my)
    (hmy : parse_y_position my height = Except.ok my_y)
    (hsy : cfg.sub_text ≠ "" → ∃ sv, cfg.sub_text_y = some sv ∧
      (sv = "" ∨ ∃ sy, parse_y_position sv height = Except.ok sy))
    (hwe : cfg.watermark_enabled = none) (hwt : cfg.watermark_text = none)
    (hwm : cfg.watermark_margin_bottom = none) (hwf : cfg.watermark_font_size = none)
    (hwc : cfg.watermark_font_color = none) :
    ∃ es, buildTextElements cfg width height = .ok es ∧
      es.getLast? = some (watermarkElem width height cfg.font_family) ∧
      (cfg.main_text = "" → cfg.sub_text = "" →
        es = [watermarkElem width height cfg.font_family]) := by
  have hwmel : watermarkElemsOf cfg (Int.fdiv width 2) height =
      [watermarkElem width height cfg.font_family] := by
    unfold watermarkElemsOf watermarkElem
    rw [hwt, hwe, hwm, hwf, hwc]
    rw [if_pos (by refine ⟨rfl, ?_⟩; decide)]
    rfl
  simp only [buildTextElements, hy, hmy]
  by_cases hsub : cfg.sub_text = ""
  · have hse : subElementsOf cfg (positionX cfg.position width)
        my_y height
        (if pyContains cfg.position ("left") then "start" else "middle") = .ok [] := by
      unfold subElementsOf
      rw [if_neg (by rw [hsub]; simp)]
    rw [hse, hwmel]
    refine ⟨_, rfl, ?_, ?_⟩
    · rw [List.getLast?_concat]
    · intro hmain _
      rw [if_neg (by rw [hmain]; simp)]
      simp
  · obtain ⟨sv, hsv, hcases⟩ := hsy hsub
    have hok : ∃ sub_y, (if sv ≠ "" then parse_y_position sv height
        else Except.ok (my_y + Int.fdiv cfg.font_size 2 +
          max 20 (pyTrunc ((cfg.font_size : ℚ) * 0.8)))) = Except.ok sub_y := by
      by_cases hsv0 : sv = ""
      · exact ⟨_, by rw [if_neg (by simp [hsv0])]⟩
      · rcases hcases with h0 | ⟨sy, hps⟩
        · exact absurd h0 hsv0
        · exact ⟨sy, by rw [if_pos hsv0, hps]⟩
    obtain ⟨sub_y, hok⟩ := hok
    have hse : ∃ se, subElementsOf cfg (positionX cfg.position width)
        my_y height
        (if pyContains cfg.position ("left") then "start" else "middle") = .ok [se] := by
      unfold subElementsOf
      rw [if_pos hsub]
      simp only [hsv]
      rw [hok]
      exact ⟨_, rfl⟩
    obtain ⟨se, hse⟩ := hse
    rw [hse, hwmel]
    refine ⟨_, rfl, ?_, ?_⟩
    · rw [List.getLast?_concat]
    · intro _ hsub2
      exact absurd hsub2 hsub

/-- C10 witness: a config with the dataclass defaults plus `main_text_y`
(whose empty value parses to the default vertical centre, 400 for height
800) gets exactly the branded watermark as its only element. -/
theorem c10_witness :
    ∃ es, buildTextElements cfgWithY 1024 800 = .ok es ∧
      es.getLast? = some (watermarkElem 1024 800 cfgWithY.font_family) ∧
      (cfgWithY.main_text = "" → cfgWithY.sub_text = "" →
        es = [watermarkElem 1024 800 cfgWithY.font_family]) :=
  c10_default_watermark cfgWithY 1024 800 ("") 400
    rfl (by decide) (fun h => absurd rfl h) rfl rfl rfl rfl rfl

/-- The legacy block loop is the order-preserving filter-then-parse. -/
theorem legacyBlocksLoop_eq (bs : List (List Char)) :
    legacyBlocksLoop bs =
      (bs.filter (fun b => !(pyStripL b).isEmpty)).filterMap parse_image_block := by
  induction bs with
  | nil => rfl
  | cons b bs ih =>
    unfold legacyBlocksLoop
    by_cases hb : pyStripL b = []
    · rw [if_pos hb, ih, List.filter_cons]
      simp [hb]
    · rw [if_neg hb, List.filter_cons]
      have hbe : (!(pyStripL b).isEmpty) = true := by
        simp [List.isEmpty_iff, hb]
      rw [if_pos hbe, List.filterMap_cons]
      cases hp : parse_image_block b with
      | none => rw [ih]
      | some item => rw [ih]

/-- C7: legacy-dialect parsing returns items in document (block) order —
the loop is a filter-then-parse over the `━`-separated blocks, never a
sort or deduplication by index; a block whose first line matches neither
the `[이미지 N]`/`[Image N]` header nor the bare `[label] rest` form is
omitted; and a block matching only the bare form yields an item with
index 0. -/
theorem c7_legacy_document_order (content : String) (block : List Char) :
    (parse_image_guide_legacy_blocks content.data =
      ((splitHeavy content.data).filter (fun b => !(pyStripL b).isEmpty)).filterMap
        parse_image_block) ∧
    (reMatchL legacyHeader1RE (firstLineOf block) = none →
      reMatchL legacyHeader2RE (firstLineOf block) = none →
      parse_image_block block = none) ∧
    (reMatchL legacyHeader1RE (firstLineOf block) = none →
      (reMatchL legacyHeader2RE (firstLineOf block)).isSome →
      ∃ item, parse_image_block block = some item ∧ item.index = 0) := by
  refine ⟨legacyBlocksLoop_eq _, ?_, ?_⟩
  · intro h1 h2
    unfold parse_image_block
    rw [h1, h2]
  · intro h1 h2
    obtain ⟨⟨e, cp⟩, hm⟩ := Option.isSome_iff_exists.mp h2
    have hred : parse_image_block block =
        parseBlockBody block 0
          (⟨capStrL (firstLineOf block) cp 1⟩ ++ " " ++ ⟨capStrL (firstLineOf block) cp 2⟩) := by
      unfold parse_image_block
      rw [h1, hm]
    rw [hred]
    unfold parseBlockBody
    by_cases hmode : legacyModeOf block ≠ "B"
    · rw [if_pos hmode]
      exact ⟨_, rfl, rfl⟩
    · rw [if_neg hmode]
      exact ⟨_, rfl, rfl⟩

set_option maxRecDepth 100000 in
/-- C7 witness: the out-of-order document parses to indices `[2, 1, 0]` in
block order (no sorting, the bare-label block contributing index 0), and
the bare-label block alone parses to an item of index 0 via the theorem's
third clause. -/
theorem c7_witness :
    (parse_image_guide_legacy_blocks legacyDocW.data).map (fun it => it.index) =
      [2, 1, 0] ∧
    ∃ item, parse_image_block (("[썸네일] 메인 썸네일").data) = some item ∧ item.index = 0 := by
  constructor
  · rw [(c7_legacy_document_order legacyDocW []).1]
    decide
  · exact (c7_legacy_document_order legacyDocW (("[썸네일] 메인 썸네일").data)).2.2
      (by decide) (by decide)

/-- The extraction loop keeps exactly the AI-generation items that carry a
nonempty prompt, in order. -/
theorem extractLoop_eq (items : List ImageGuideItem) :
    extractLoop items =
      (items.filter (fun it => it.mode == "B" && it.prompt != "")).map mkGeminiPrompt := by
  induction items with
  | nil => rfl
  | cons item rest ih =>
    unfold extractLoop
    rw [List.filter_cons]
    by_cases h1 : item.mode = "B"
    · rw [if_neg (by simp [h1])]
      by_cases h2 : item.prompt = ""
      · rw [if_pos h2, if_neg (by simp [h1, h2]), ih]
      · rw [if_neg h2, if_pos (by simp [h1, h2]), List.map_cons, ih]
    · rw [if_pos h1, if_neg (by simp [h1]), ih]

/-- C9: for every image-guide document, `extract_gemini_prompts` returns
exactly one `GeminiPrompt` per parsed item whose mode is AI generation
(`"B"`) and whose prompt text is nonempty, in document order; reference
items, SVG items, and AI items with an empty prompt are silently dropped
from the batch even though the parser returned them. -/
theorem c9_extract_is_filtered_parse (content : String) :
    extract_gemini_prompts content =
      ((parse_image_guide_markdown content.data).filter
        (fun it => it.mode == "B" && it.prompt != "")).map mkGeminiPrompt :=
  extractLoop_eq (parse_image_guide_markdown content.data)
